import Mathlib

/-! Roots vs Robots: a shallow embedding of `finalgraphics1.c`.

The simulation core of the game (everything except drawing) is translated
function by function.  Conventions:

* C `float` values (positions, the match clock, the robot speed) are exact
  rationals `ℚ`; C `int` values are `Int` (no counter of the game comes near
  the 32-bit range).
* The three global arrays are vectors of the fixed capacities `LANE_COUNT`,
  `MAX_ROBOTS`, `MAX_PROJECTILES`; a `for (i = 0; i < N; i++)` loop is a
  recursion over `List.finRange N`, the slot indices in ascending order.
* The globals are the fields of `Game`; every function takes the state and
  returns the new one.
* The library calls that feed the simulation (`GetFrameTime`,
  `GetRandomValue`, the mouse, `CheckCollisionCircleRec`) are inputs.
-/

namespace RootsVsRobots

open Mathlib (Vector)

/-! ## Constants (lines 6-15) -/

abbrev SCREEN_WIDTH : ℚ := 800
abbrev LANE_COUNT : Nat := 5
abbrev MAX_ROBOTS : Nat := 10
abbrev MAX_PROJECTILES : Nat := 50
abbrev EASY_TIME : Int := 60
abbrev HARD_TIME : Int := 30
abbrev EASY_ROBOT_SPEED : ℚ := 1
abbrev HARD_ROBOT_SPEED : ℚ := 3
abbrev BASE_HEALTH : Int := 5

/-- The global `secondsPerUpdate` (line 50): initialised to 1.0 and never assigned. -/
abbrev secondsPerUpdate : ℚ := 1

/-! ## Data model (lines 18-53) -/

/-- The raylib pair of floats. -/
structure Vector2 where
  x : ℚ
  y : ℚ
deriving DecidableEq

/-- The raylib rectangle handed to the collision test. -/
structure Rectangle where
  x : ℚ
  y : ℚ
  width : ℚ
  height : ℚ
deriving DecidableEq

/-- A turret slot, `struct Plant`. -/
structure Plant where
  position : Vector2
  active : Bool
  shootTimer : Int
deriving DecidableEq

/-- A robot slot, `struct Robot`; the field `speed` is never read or written. -/
structure Robot where
  position : Vector2
  active : Bool
  health : Int
  speed : ℚ
deriving DecidableEq

/-- A projectile slot, `struct Projectile`. -/
structure Projectile where
  position : Vector2
  active : Bool
  lane : Int
deriving DecidableEq

/-- The global variables of the program (lines 40-53). -/
@[ext]
structure Game where
  plants : Vector Plant LANE_COUNT
  robots : Vector Robot MAX_ROBOTS
  projectiles : Vector Projectile MAX_PROJECTILES
  gameRunning : Bool
  gameOver : Bool
  score : Int
  baseHealth : Int
  gameTime : Int
  remainingTime : ℚ
  timeSinceLastUpdate : ℚ
  robotSpeed : ℚ
  endMessage : String
  plantCount : Int
deriving DecidableEq

/-- The collision test `CheckCollisionCircleRec center radius rec` of raylib. -/
abbrev Collision := Vector2 → ℚ → Rectangle → Bool

/-- What one call of `UpdateGame` reads from the outside world. -/
structure FrameInput where
  /-- Result of `GetFrameTime()`. -/
  frameTime : ℚ
  /-- Result of `GetRandomValue(0, 100)` (line 184). -/
  spawnRoll : Int
  /-- Result of `GetRandomValue(0, LANE_COUNT - 1)` (line 275), read only when a robot slot is free. -/
  laneRoll : Int
  /-- The mouse position when `IsMouseButtonPressed(MOUSE_BUTTON_LEFT)`, else `none`. -/
  click : Option Vector2

/-- The state at program start: statics are zeroed unless initialised (lines 40-53). -/
def initialState : Game where
  plants := Vector.replicate LANE_COUNT ⟨⟨0, 0⟩, false, 0⟩
  robots := Vector.replicate MAX_ROBOTS ⟨⟨0, 0⟩, false, 0, 0⟩
  projectiles := Vector.replicate MAX_PROJECTILES ⟨⟨0, 0⟩, false, 0⟩
  gameRunning := false
  gameOver := false
  score := 0
  baseHealth := BASE_HEALTH
  gameTime := EASY_TIME
  remainingTime := 0
  timeSinceLastUpdate := 0
  robotSpeed := EASY_ROBOT_SPEED
  endMessage := ""
  plantCount := 0

/-! ## `InitGame`, restart and difficulty selection (lines 105-108, 118-166) -/

/-- `InitGame` (lines 118-140): three slot loops, then the three scalar resets. -/
def InitGame (s : Game) : Game :=
  { s with
    plants := Vector.ofFn fun i : Fin LANE_COUNT =>
      { position := ⟨-100, (((i.val : Int) * 100 + 50 : Int) : ℚ)⟩, active := false, shootTimer := 0 }
    robots := s.robots.map fun r => { r with active := false }
    projectiles := s.projectiles.map fun p => { p with active := false }
    score := 0
    remainingTime := (s.gameTime : ℚ)
    plantCount := 0 }

/-- The restart branch of the game-over screen in `main` (lines 105-108). -/
def restart (s : Game) : Game :=
  InitGame { s with gameOver := false }

/-- One pass through the body of the loop of `DifficultyScreen` (lines 151-162). -/
def DifficultyScreenFrame (keyOne keyTwo : Bool) (s : Game) : Game :=
  let s1 :=
    if keyOne then
      InitGame { s with gameTime := EASY_TIME, robotSpeed := EASY_ROBOT_SPEED, gameRunning := true }
    else s
  if keyTwo then
    InitGame { s1 with gameTime := HARD_TIME, robotSpeed := HARD_ROBOT_SPEED, gameRunning := true }
  else s1

/-- `DifficultyScreen` (lines 142-166) over the key polls of successive frames. -/
def DifficultyScreen : List (Bool × Bool) → Game → Game
  | [], s => s
  | (keyOne, keyTwo) :: polls, s =>
    if !s.gameRunning && !s.gameOver then
      DifficultyScreen polls (DifficultyScreenFrame keyOne keyTwo s)
    else s

/-! ## `EndGame` and the clock (lines 170-181, 341-344) -/

/-- `EndGame` (lines 341-344). -/
def EndGame (message : String) (s : Game) : Game :=
  { s with gameOver := true, endMessage := message }

/-- The clock part of `UpdateGame` (lines 170-181). -/
def clockStep (frameTime : ℚ) (s : Game) : Game :=
  let s1 := { s with timeSinceLastUpdate := s.timeSinceLastUpdate + frameTime }
  let s2 :=
    if s1.timeSinceLastUpdate ≥ secondsPerUpdate then
      { s1 with remainingTime := s1.remainingTime - 1, timeSinceLastUpdate := 0 }
    else s1
  if s2.remainingTime ≤ 0 then EndGame "YOU WON!" s2 else s2

/-! ## Robots (lines 183-200, 272-281) -/

/-- The loop of `SpawnRobot` from a given list of slots on: fill the first inactive one, then `break`. -/
def spawnScan (laneRoll : Int) (s : Game) : List (Fin MAX_ROBOTS) → Game
  | [] => s
  | i :: rest =>
    if !(s.robots.get i).active then
      let r : Robot :=
        { s.robots.get i with
          position := ⟨SCREEN_WIDTH, ((laneRoll * 100 + 50 : Int) : ℚ)⟩
          active := true
          health := 3 }
      { s with robots := s.robots.set i r }
    else spawnScan laneRoll s rest

/-- `SpawnRobot` (lines 272-281). -/
def SpawnRobot (laneRoll : Int) (s : Game) : Game :=
  spawnScan laneRoll s (List.finRange MAX_ROBOTS)

/-- The body of the robot loop of `UpdateGame` for slot `i` (lines 190-199). -/
def robotStep (s : Game) (i : Fin MAX_ROBOTS) : Game :=
  if (s.robots.get i).active then
    let r := s.robots.get i
    let moved : Robot := { r with position := ⟨r.position.x - s.robotSpeed, r.position.y⟩ }
    let s1 := { s with robots := s.robots.set i moved }
    if (s1.robots.get i).position.x < 0 then
      let s2 := { s1 with
        robots := s1.robots.set i { s1.robots.get i with active := false }
        baseHealth := s1.baseHealth - 1 }
      if s2.baseHealth ≤ 0 then EndGame "YOU LOST!" s2 else s2
    else s1
  else s

/-- The robot loop of `UpdateGame` (lines 189-200). -/
def moveRobots (s : Game) : Game :=
  (List.finRange MAX_ROBOTS).foldl robotStep s

/-! ## Turrets (lines 202-220, 283-310) -/

/-- The loop of `PlacePlant` from a given list of slots on (lines 290-298). -/
def placeScan (position : Vector2) (s : Game) : List (Fin LANE_COUNT) → Game
  | [] => s
  | i :: rest =>
    if (s.plants.get i).active == false then
      { s with
        plants := s.plants.set i { position := position, active := true, shootTimer := 60 }
        plantCount := s.plantCount + 1 }
    else placeScan position s rest

/-- `PlacePlant` (lines 283-299). -/
def PlacePlant (position : Vector2) (s : Game) : Game :=
  if s.plantCount ≥ 7 then s
  else placeScan position s (List.finRange LANE_COUNT)

/-- The loop of `ShootProjectile` from a given list of slots on (lines 302-309). -/
def shootScan (lane : Fin LANE_COUNT) (s : Game) : List (Fin MAX_PROJECTILES) → Game
  | [] => s
  | i :: rest =>
    if !(s.projectiles.get i).active then
      let p : Projectile :=
        { position := ⟨(s.plants.get lane).position.x + 20, (s.plants.get lane).position.y⟩
          active := true
          lane := (lane.val : Int) }
      { s with projectiles := s.projectiles.set i p }
    else shootScan lane s rest

/-- `ShootProjectile` (lines 301-310). -/
def ShootProjectile (lane : Fin LANE_COUNT) (s : Game) : Game :=
  shootScan lane s (List.finRange MAX_PROJECTILES)

/-- The body of the turret loop of `UpdateGame` for slot `i` (lines 210-219). -/
def plantStep (s : Game) (i : Fin LANE_COUNT) : Game :=
  if (s.plants.get i).active then
    let ticked : Plant := { s.plants.get i with shootTimer := (s.plants.get i).shootTimer - 1 }
    let s1 := { s with plants := s.plants.set i ticked }
    if (s1.plants.get i).shootTimer ≤ 0 then
      let s2 := ShootProjectile i s1
      { s2 with plants := s2.plants.set i { s2.plants.get i with shootTimer := 60 } }
    else s1
  else s

/-- The turret loop of `UpdateGame` (lines 209-220). -/
def updatePlants (s : Game) : Game :=
  (List.finRange LANE_COUNT).foldl plantStep s

/-! ## Projectiles and collisions (lines 312-339) -/

/-- The body of the loop of `UpdateProjectiles` for slot `i` (lines 314-319). -/
def projectileStep (s : Game) (i : Fin MAX_PROJECTILES) : Game :=
  if (s.projectiles.get i).active then
    let p := s.projectiles.get i
    let moved : Projectile := { p with position := ⟨p.position.x + 5, p.position.y⟩ }
    let s1 := { s with projectiles := s.projectiles.set i moved }
    if (s1.projectiles.get i).position.x > SCREEN_WIDTH then
      { s1 with projectiles := s1.projectiles.set i { s1.projectiles.get i with active := false } }
    else s1
  else s

/-- `UpdateProjectiles` (lines 312-321). -/
def UpdateProjectiles (s : Game) : Game :=
  (List.finRange MAX_PROJECTILES).foldl projectileStep s

/-- The inner loop of `CheckCollisions` for projectile `i`, from a given list of robot slots on
(lines 326-336). -/
def collideScan (coll : Collision) (i : Fin MAX_PROJECTILES) (s : Game) :
    List (Fin MAX_ROBOTS) → Game
  | [] => s
  | j :: rest =>
    let r := s.robots.get j
    if r.active && coll (s.projectiles.get i).position 5 ⟨r.position.x, r.position.y, 40, 40⟩ then
      let s1 := { s with
        robots := s.robots.set j { r with health := r.health - 1 }
        projectiles := s.projectiles.set i { s.projectiles.get i with active := false } }
      if (s1.robots.get j).health ≤ 0 then
        { s1 with
          robots := s1.robots.set j { s1.robots.get j with active := false }
          score := s1.score + 10 }
      else s1
    else collideScan coll i s rest

/-- The body of the outer loop of `CheckCollisions` for projectile `i` (lines 325-337). -/
def collideStep (coll : Collision) (s : Game) (i : Fin MAX_PROJECTILES) : Game :=
  if (s.projectiles.get i).active then collideScan coll i s (List.finRange MAX_ROBOTS) else s

/-- `CheckCollisions` (lines 323-339). -/
def CheckCollisions (coll : Collision) (s : Game) : Game :=
  (List.finRange MAX_PROJECTILES).foldl (collideStep coll) s

/-! ## The frame (lines 74-96, 168-227) -/

/-- The spawn part of `UpdateGame` (lines 184-186). -/
def spawnStep (inp : FrameInput) (s : Game) : Game :=
  if inp.spawnRoll < 2 then SpawnRobot inp.laneRoll s else s

/-- The placement part of `UpdateGame` (lines 203-206). -/
def clickStep (inp : FrameInput) (s : Game) : Game :=
  match inp.click with
  | some mousePosition => PlacePlant mousePosition s
  | none => s

/-- `UpdateGame` (lines 168-227). -/
def UpdateGame (coll : Collision) (inp : FrameInput) (s : Game) : Game :=
  CheckCollisions coll
    (UpdateProjectiles
      (updatePlants
        (clickStep inp
          (moveRobots
            (spawnStep inp
              (clockStep inp.frameTime s))))))

/-- One iteration of the loop of `main` while a match is on and ENTER is not pressed
(lines 74-111): `UpdateGame` runs unless the game is over. -/
def playFrame (coll : Collision) (s : Game) (inp : FrameInput) : Game :=
  if !s.gameOver then
    if !s.gameRunning then s else UpdateGame coll inp s
  else s

/-- The loop of `main` over a sequence of frames without ENTER. -/
def playFrames (coll : Collision) (s : Game) (inputs : List FrameInput) : Game :=
  inputs.foldl (playFrame coll) s

/-! ## Vocabulary of the statements -/

/-- Robot `i` is active and its `x` is below 0 once moved left by the robot speed. -/
def breaches (s : Game) (i : Fin MAX_ROBOTS) : Bool :=
  (s.robots.get i).active && decide ((s.robots.get i).position.x - s.robotSpeed < 0)

/-- Number of robots that breach when the robot loop runs from state `s`. -/
def breachCount (s : Game) : Nat :=
  (List.finRange MAX_ROBOTS).countP (breaches s)

/-- The state in which the robot loop of `UpdateGame` starts: after the clock and the spawn. -/
def robotLoopEntry (inp : FrameInput) (s : Game) : Game :=
  spawnStep inp (clockStep inp.frameTime s)

/-- What the robot loop does to one slot: an active robot moves left by `v` and is deactivated
when its new `x` is below 0. -/
def movedRobot (v : ℚ) (r : Robot) : Robot :=
  if r.active then
    if r.position.x - v < 0 then
      { r with position := ⟨r.position.x - v, r.position.y⟩, active := false }
    else { r with position := ⟨r.position.x - v, r.position.y⟩ }
  else r

/-- The robot loop restricted to a list of slots, in closed form. -/
def moveRobotsOn (slots : List (Fin MAX_ROBOTS)) (s : Game) : Game :=
  { s with
    robots := Vector.ofFn fun j =>
      if j ∈ slots then movedRobot s.robotSpeed (s.robots.get j) else s.robots.get j
    baseHealth := s.baseHealth - (slots.countP (breaches s) : Int)
    gameOver := s.gameOver ||
      (decide (0 < slots.countP (breaches s)) &&
        decide (s.baseHealth - (slots.countP (breaches s) : Int) ≤ 0))
    endMessage :=
      if 0 < slots.countP (breaches s) ∧ s.baseHealth - (slots.countP (breaches s) : Int) ≤ 0
      then "YOU LOST!" else s.endMessage }

/-- The remaining time after the clock part of a frame. -/
def timeAfterClock (dt : ℚ) (s : Game) : ℚ :=
  if s.timeSinceLastUpdate + dt ≥ secondsPerUpdate then s.remainingTime - 1 else s.remainingTime

/-- The match started by pressing 1 on the difficulty screen of a fresh program. -/
def easyStart : Game :=
  DifficultyScreen [(true, false)] initialState

/-- The match started by pressing 2 on the difficulty screen of a fresh program. -/
def hardStart : Game :=
  DifficultyScreen [(false, true)] initialState

/-- Number of frames, among those with the given frame times and starting from accumulator
`acc`, at which the accumulated time reaches `secondsPerUpdate` (it then restarts from 0). -/
def ticks : ℚ → List ℚ → Nat
  | _, [] => 0
  | acc, dt :: rest =>
    if acc + dt ≥ secondsPerUpdate then ticks 0 rest + 1 else ticks (acc + dt) rest

/-- What `UpdateProjectiles` does to one slot: an active projectile moves right by 5 and is
deactivated when its new `x` exceeds the screen width. -/
def advanced (p : Projectile) : Projectile :=
  if p.active then
    if p.position.x + 5 > SCREEN_WIDTH then
      { p with position := ⟨p.position.x + 5, p.position.y⟩, active := false }
    else { p with position := ⟨p.position.x + 5, p.position.y⟩ }
  else p

/-- The projectile loop restricted to a list of slots, in closed form. -/
def advanceOn (slots : List (Fin MAX_PROJECTILES)) (s : Game) : Game :=
  { s with
    projectiles := Vector.ofFn fun j =>
      if j ∈ slots then advanced (s.projectiles.get j) else s.projectiles.get j }

/-- An Easy match in its last second with base health 1 and a robot at the left edge. -/
def lastSecondBreach : Game :=
  { easyStart with
    remainingTime := 1
    baseHealth := 1
    robots := easyStart.robots.set 0 ⟨⟨0, 50⟩, true, 3, 0⟩ }

/-- A frame of one second with no spawn (roll 50) and no click. -/
def quietSecond : FrameInput := ⟨1, 50, 0, none⟩

/-- A frame of three quarters of a second with no spawn and no click. -/
def slowFrame : FrameInput := ⟨3 / 4, 50, 0, none⟩

/-- A collision test that never reports a hit. -/
def noCollision : Collision := fun _ _ _ => false

/-- An Easy match in its last second, without robots. -/
def lastSecondQuiet : Game :=
  { easyStart with remainingTime := 1 }

/-- A fresh Easy match in which a turret has been placed at (280, 250); it sits in slot 0. -/
def turretAt280 : Game :=
  PlacePlant ⟨280, 250⟩ easyStart

/-- A fresh Hard match in which a robot has just been spawned in lane 0; it sits in slot 0. -/
def hardWithRobot : Game :=
  SpawnRobot 0 hardStart

/-- A collision test that always reports a hit. -/
def allCollide : Collision := fun _ _ _ => true

/-- A fresh Easy match with a projectile in slot 0 and robots in slots 0 (health 1) and 1. -/
def duelState : Game :=
  { easyStart with
    robots := (easyStart.robots.set 0 ⟨⟨400, 50⟩, true, 1, 0⟩).set 1 ⟨⟨400, 50⟩, true, 3, 0⟩
    projectiles := easyStart.projectiles.set 0 ⟨⟨400, 50⟩, true, 0⟩ }

/-- Projectile `i` touches the active robot `j`: the test of line 327. -/
def hits (coll : Collision) (s : Game) (i : Fin MAX_PROJECTILES) (j : Fin MAX_ROBOTS) : Bool :=
  (s.robots.get j).active &&
    coll (s.projectiles.get i).position 5
      ⟨(s.robots.get j).position.x, (s.robots.get j).position.y, 40, 40⟩

/-- A robot after one hit: one health less, and inactive when that leaves no health. -/
def damaged (r : Robot) : Robot :=
  if r.health - 1 ≤ 0 then { r with health := r.health - 1, active := false }
  else { r with health := r.health - 1 }

/-- The state after projectile `i` has hit robot `j`. -/
def hitResult (s : Game) (i : Fin MAX_PROJECTILES) (j : Fin MAX_ROBOTS) : Game :=
  { s with
    robots := s.robots.set j (damaged (s.robots.get j))
    projectiles := s.projectiles.set i { s.projectiles.get i with active := false }
    score := if (s.robots.get j).health - 1 ≤ 0 then s.score + 10 else s.score }

/-- Steps that touch only the turrets, the turret count and the projectiles. -/
def OnlyTurretsChange (s t : Game) : Prop :=
  t.robots = s.robots ∧ t.gameRunning = s.gameRunning ∧ t.gameOver = s.gameOver ∧
  t.score = s.score ∧ t.baseHealth = s.baseHealth ∧ t.gameTime = s.gameTime ∧
  t.remainingTime = s.remainingTime ∧ t.timeSinceLastUpdate = s.timeSinceLastUpdate ∧
  t.robotSpeed = s.robotSpeed ∧ t.endMessage = s.endMessage

/-- Steps that touch only robots, projectiles and score, and leave inactive robots alone. -/
def OnlyCombatChanges (s t : Game) : Prop :=
  t.plants = s.plants ∧ t.gameRunning = s.gameRunning ∧ t.gameOver = s.gameOver ∧
  t.baseHealth = s.baseHealth ∧ t.gameTime = s.gameTime ∧
  t.remainingTime = s.remainingTime ∧ t.timeSinceLastUpdate = s.timeSinceLastUpdate ∧
  t.robotSpeed = s.robotSpeed ∧ t.endMessage = s.endMessage ∧ t.plantCount = s.plantCount ∧
  ∀ j, (s.robots.get j).active = false → t.robots.get j = s.robots.get j

/-- A sequence of `UpdateGame` frames, one per input, from state `s`. -/
def runFrames (coll : Collision) (s : Game) (inputs : List FrameInput) : Game :=
  inputs.foldl (fun g inp => UpdateGame coll inp g) s

/-- Number of active robot slots. -/
def activeRobots (s : Game) : Nat :=
  (List.finRange MAX_ROBOTS).countP fun j => (s.robots.get j).active

/-- Number of active projectile slots. -/
def activeProjectiles (s : Game) : Nat :=
  (List.finRange MAX_PROJECTILES).countP fun i => (s.projectiles.get i).active

/-- Number of active turret slots. -/
def activePlants (s : Game) : Nat :=
  (List.finRange LANE_COUNT).countP fun i => (s.plants.get i).active

/-- Every active robot has between 1 and 3 health. -/
def RobotsHealthy (s : Game) : Prop :=
  ∀ j, (s.robots.get j).active = true → 1 ≤ (s.robots.get j).health ∧ (s.robots.get j).health ≤ 3

/-- A frame of no time in which a robot is spawned in lane 2 and nothing is clicked. -/
def spawnFrame : FrameInput := ⟨0, 0, 2, none⟩

/-- The difficulty screen left idle for `n` frames, then key 1 pressed (key 2 not). -/
def chooseEasy (n : Nat) (later : List (Bool × Bool)) : Game :=
  DifficultyScreen (List.replicate n (false, false) ++ (true, false) :: later) initialState

/-- The difficulty screen left idle for `n` frames, then key 2 pressed (key 1 not). -/
def chooseHard (n : Nat) (later : List (Bool × Bool)) : Game :=
  DifficultyScreen (List.replicate n (false, false) ++ (false, true) :: later) initialState

/-- The game-over state of the lost match `lastSecondBreach`, restarted with ENTER. -/
def restartedAfterLoss : Game :=
  restart (UpdateGame noCollision quietSecond lastSecondBreach)

/-- What the turret loop does to one slot: an active turret's countdown goes down by 1, and
back to 60 when the decremented value is at most 0. -/
def tickedPlant (p : Plant) : Plant :=
  if p.active then
    if p.shootTimer - 1 ≤ 0 then { p with shootTimer := 60 }
    else { p with shootTimer := p.shootTimer - 1 }
  else p

/-- Turret `i` is active and its countdown, decremented, is at most 0: it fires. -/
def fires (s : Game) (i : Fin LANE_COUNT) : Bool :=
  (s.plants.get i).active && decide ((s.plants.get i).shootTimer - 1 ≤ 0)

/-- `ShootProjectile` called, in the order of the list, for the slots selected by `sel`. -/
def shotsFrom (sel : Fin LANE_COUNT → Bool) (g : Game) (slots : List (Fin LANE_COUNT)) : Game :=
  slots.foldl (fun t i => if sel i then ShootProjectile i t else t) g

/-- The turrets with the countdown of the slots of the list ticked. -/
def tickedOn (slots : List (Fin LANE_COUNT)) (pl : Vector Plant LANE_COUNT) :
    Vector Plant LANE_COUNT :=
  Vector.ofFn fun k => if k ∈ slots then tickedPlant (pl.get k) else pl.get k

/-- A frame of no time with a click at (280, 250), no spawn. -/
def clickFrame : FrameInput := ⟨0, 50, 0, some ⟨280, 250⟩⟩

/-- The state in which the turret loop of `UpdateGame` starts: after the click. -/
def turretLoopEntry (inp : FrameInput) (s : Game) : Game :=
  clickStep inp (moveRobots (robotLoopEntry inp s))

/-- The turret count and the activity of every turret slot are the same in `s` and `t`. -/
def SameTurrets (s t : Game) : Prop :=
  t.plantCount = s.plantCount ∧ ∀ k, (t.plants.get k).active = (s.plants.get k).active

/-- The turret count equals the number of active turret slots. -/
def TurretsCounted (s : Game) : Prop :=
  s.plantCount = (activePlants s : Int)

/-- Number of projectile slots active in `s` and inactive in `t`. -/
def projectilesLost (s t : Game) : Nat :=
  (List.finRange MAX_PROJECTILES).countP fun i =>
    (s.projectiles.get i).active && !(t.projectiles.get i).active

/-- Number of robot slots active in `s` and inactive in `t`. -/
def robotsLost (s t : Game) : Nat :=
  (List.finRange MAX_ROBOTS).countP fun j => (s.robots.get j).active && !(t.robots.get j).active

/-- Health lost from `s` to `t`, summed over all robot slots. -/
def healthLost (s t : Game) : Int :=
  ((List.finRange MAX_ROBOTS).map fun j => (s.robots.get j).health - (t.robots.get j).health).sum

/-- The balance of a collision pass that has led from `s` to `t`. -/
def Conserved (s t : Game) : Prop :=
  (projectilesLost s t : Int) = healthLost s t ∧
  t.score - s.score = 10 * (robotsLost s t : Int) ∧
  (∀ i, (s.projectiles.get i).active = false → (t.projectiles.get i).active = false) ∧
  (∀ j, (s.robots.get j).active = false → (t.robots.get j).active = false)

/-- What a collision pass can have done to a robot slot that held `r` and now holds `q`:
position kept, health not raised, not activated, and deactivated only by a hit that left
health at most 0. -/
def AfterHits (r q : Robot) : Prop :=
  q.position = r.position ∧ q.health ≤ r.health ∧ (q.active = true → r.active = true) ∧
  (r.active = true → q.active = false → q.health ≤ 0 ∧ q.health < r.health)

/-! ## Scans that stop at the first matching slot -/

/-- A loop that stops at its first hit does nothing when no slot of the list hits. -/
theorem scan_none {n : Nat} {α : Type} (c : Fin n → Bool) (b : Fin n → α) (d : α)
    (f : List (Fin n) → α) (hnil : f [] = d)
    (hcons : ∀ i rest, f (i :: rest) = if c i then b i else f rest) :
    ∀ slots : List (Fin n), (∀ k ∈ slots, c k = false) → f slots = d := by
  intro slots
  induction slots with
  | nil => intro _; exact hnil
  | cons i rest ih =>
    intro h
    rw [hcons, h i (List.mem_cons_self i rest)]
    exact ih fun k hk => h k (List.mem_cons_of_mem i hk)

/-- A loop over ascending slots that stops at its first hit runs its body at the lowest hit. -/
theorem scan_first {n : Nat} {α : Type} (c : Fin n → Bool) (b : Fin n → α)
    (f : List (Fin n) → α)
    (hcons : ∀ i rest, f (i :: rest) = if c i then b i else f rest) (j : Fin n)
    (hj : c j = true) (hlow : ∀ k, k < j → c k = false) :
    ∀ slots : List (Fin n), slots.Pairwise (· < ·) → j ∈ slots → f slots = b j := by
  intro slots
  induction slots with
  | nil => intro _ hmem; exact absurd hmem (List.not_mem_nil j)
  | cons i rest ih =>
    intro hsorted hmem
    rw [hcons]
    rcases List.mem_cons.mp hmem with hji | hjr
    · subst hji; rw [hj]; rfl
    · have hlt : i < j := (List.pairwise_cons.mp hsorted).1 j hjr
      rw [hlow i hlt]
      exact ih (List.pairwise_cons.mp hsorted).2 hjr

/-- A loop that stops at its first hit returns its start value or the body at some hit. -/
theorem scan_cases {n : Nat} {α : Type} (c : Fin n → Bool) (b : Fin n → α) (d : α)
    (f : List (Fin n) → α) (hnil : f [] = d)
    (hcons : ∀ i rest, f (i :: rest) = if c i then b i else f rest) :
    ∀ slots : List (Fin n), f slots = d ∨ ∃ j, c j = true ∧ f slots = b j := by
  intro slots
  induction slots with
  | nil => exact Or.inl hnil
  | cons i rest ih =>
    rw [hcons]
    by_cases h : c i = true
    · exact Or.inr ⟨i, h, by simp [h]⟩
    · simpa [h] using ih

/-- A field that no pass of a loop body changes is unchanged by the loop. -/
theorem foldl_rel {α β : Type} (step : α → β → α) (R : α → α → Prop)
    (hrefl : ∀ a, R a a) (htrans : ∀ a b c, R a b → R b c → R a c)
    (hstep : ∀ a b, R a (step a b)) : ∀ (l : List β) (a : α), R a (l.foldl step a) := by
  intro l
  induction l with
  | nil => intro a; exact hrefl a
  | cons b rest ih => intro a; exact htrans _ _ _ (hstep a b) (ih (step a b))

/-! ## Vectors -/

theorem vector_set_get {α : Type} {n : Nat} (v : Vector α n) (i : Fin n) :
    v.set i (v.get i) = v := by
  apply Vector.ext
  intro m
  by_cases h : i = m
  · subst h; rw [Vector.get_set_same]
  · rw [Vector.get_set_of_ne h]

theorem vector_set_set {α : Type} {n : Nat} (v : Vector α n) (i : Fin n) (a b : α) :
    (v.set i a).set i b = v.set i b := by
  apply Vector.ext
  intro m
  by_cases h : i = m
  · subst h; rw [Vector.get_set_same, Vector.get_set_same]
  · rw [Vector.get_set_of_ne h, Vector.get_set_of_ne h, Vector.get_set_of_ne h]

/-! ## The robot loop, slot by slot -/

theorem robotStep_eq (s : Game) (i : Fin MAX_ROBOTS) :
    robotStep s i =
      { s with
        robots := s.robots.set i (movedRobot s.robotSpeed (s.robots.get i))
        baseHealth := s.baseHealth - (if breaches s i then 1 else 0)
        gameOver := s.gameOver || (breaches s i && decide (s.baseHealth - 1 ≤ 0))
        endMessage := if breaches s i = true ∧ s.baseHealth - 1 ≤ 0 then "YOU LOST!"
          else s.endMessage } := by
  unfold robotStep breaches movedRobot
  by_cases hact : (s.robots.get i).active = true
  · by_cases hx : (s.robots.get i).position.x - s.robotSpeed < 0
    · by_cases hb : s.baseHealth - 1 ≤ 0
      · apply Game.ext <;> simp [hact, hx, hb, EndGame, Vector.get_set_same, vector_set_set]
      · apply Game.ext <;> simp [hact, hx, hb, EndGame, Vector.get_set_same, vector_set_set]
    · apply Game.ext <;> simp [hact, hx, EndGame, Vector.get_set_same]
  · apply Game.ext <;> simp [hact, vector_set_get]

theorem moveRobotsOn_nil (s : Game) : moveRobotsOn [] s = s := by
  apply Game.ext <;> simp [moveRobotsOn]

theorem breaches_robotStep (s : Game) (i j : Fin MAX_ROBOTS) (h : i ≠ j) :
    breaches (robotStep s i) j = breaches s j := by
  rw [robotStep_eq]
  simp [breaches, Vector.get_set_of_ne h]

theorem foldl_robotStep (slots : List (Fin MAX_ROBOTS)) :
    ∀ s : Game, slots.Nodup → slots.foldl robotStep s = moveRobotsOn slots s := by
  induction slots with
  | nil => intro s _; simp [moveRobotsOn_nil]
  | cons i rest ih =>
    intro s hnd
    have hi : i ∉ rest := (List.nodup_cons.mp hnd).1
    rw [List.foldl_cons, ih _ (List.nodup_cons.mp hnd).2]
    have hcount : rest.countP (breaches (robotStep s i)) = rest.countP (breaches s) := by
      apply List.countP_congr
      intro j hj
      rw [breaches_robotStep s i j (fun h => hi (h ▸ hj))]
    have hcons : (i :: rest).countP (breaches s) =
        rest.countP (breaches s) + (if breaches s i then 1 else 0) := by
      rw [List.countP_cons]
    unfold moveRobotsOn
    rw [hcount, hcons]
    generalize rest.countP (breaches s) = c
    clear hcount hcons ih
    rw [robotStep_eq]
    apply Game.ext
    all_goals simp only []
    · apply Vector.ext
      intro m
      simp only [Vector.get_ofFn, List.mem_cons]
      by_cases hm : m = i
      · subst hm; simp [hi, Vector.get_set_same]
      · have hne : i ≠ m := fun h => hm h.symm
        simp [hm, Vector.get_set_of_ne hne]
    · cases hb : breaches s i <;> cases hg : s.gameOver <;> simp
      rw [Bool.eq_iff_iff]
      simp only [Bool.or_eq_true, Bool.and_eq_true, decide_eq_true_eq]
      omega
    · cases hb : breaches s i
      · simp
      · simp only [if_true, Nat.cast_add, Nat.cast_one]
        omega
    · cases hb : breaches s i
      · simp
      · simp only [hb, if_true, Nat.cast_add, Nat.cast_one, true_and]
        split_ifs <;> first | rfl | (exfalso; omega)

/-! ## The robot loop in closed form -/

theorem moveRobots_eq (s : Game) :
    moveRobots s =
      { s with
        robots := s.robots.map (movedRobot s.robotSpeed)
        baseHealth := s.baseHealth - (breachCount s : Int)
        gameOver := s.gameOver ||
          (decide (0 < breachCount s) && decide (s.baseHealth - (breachCount s : Int) ≤ 0))
        endMessage :=
          if 0 < breachCount s ∧ s.baseHealth - (breachCount s : Int) ≤ 0
          then "YOU LOST!" else s.endMessage } := by
  unfold moveRobots
  rw [foldl_robotStep _ s (List.nodup_finRange _)]
  unfold moveRobotsOn breachCount
  apply Game.ext <;> simp only []
  apply Vector.ext
  intro m
  simp [Vector.get_ofFn, Vector.get_map, List.mem_finRange]

/-! ## Which fields each step can change -/

theorem placeScan_cons (position : Vector2) (s : Game) (i : Fin LANE_COUNT)
    (rest : List (Fin LANE_COUNT)) :
    placeScan position s (i :: rest) =
      if !(s.plants.get i).active then
        { s with
          plants := s.plants.set i { position := position, active := true, shootTimer := 60 }
          plantCount := s.plantCount + 1 }
      else placeScan position s rest := by
  cases h : (s.plants.get i).active <;> simp [placeScan, h]

theorem onlyTurrets_refl (s : Game) : OnlyTurretsChange s s := by
  simp [OnlyTurretsChange]

theorem onlyTurrets_trans (a b c : Game) (h1 : OnlyTurretsChange a b)
    (h2 : OnlyTurretsChange b c) : OnlyTurretsChange a c := by
  obtain ⟨a1, a2, a3, a4, a5, a6, a7, a8, a9, a10⟩ := h1
  obtain ⟨b1, b2, b3, b4, b5, b6, b7, b8, b9, b10⟩ := h2
  exact ⟨b1.trans a1, b2.trans a2, b3.trans a3, b4.trans a4, b5.trans a5, b6.trans a6,
    b7.trans a7, b8.trans a8, b9.trans a9, b10.trans a10⟩

theorem PlacePlant_onlyTurrets (P : Vector2) (s : Game) : OnlyTurretsChange s (PlacePlant P s) := by
  unfold PlacePlant
  split
  · exact onlyTurrets_refl s
  · rcases scan_cases (fun i => !(s.plants.get i).active) _ s (placeScan P s) rfl
      (placeScan_cons P s) (List.finRange LANE_COUNT) with h | ⟨j, _, h⟩
    · rw [h]; exact onlyTurrets_refl s
    · rw [h]; simp [OnlyTurretsChange]

theorem clickStep_onlyTurrets (inp : FrameInput) (s : Game) :
    OnlyTurretsChange s (clickStep inp s) := by
  unfold clickStep
  split
  · exact PlacePlant_onlyTurrets _ s
  · exact onlyTurrets_refl s

theorem shootScan_cons (lane : Fin LANE_COUNT) (s : Game) (i : Fin MAX_PROJECTILES)
    (rest : List (Fin MAX_PROJECTILES)) :
    shootScan lane s (i :: rest) =
      if !(s.projectiles.get i).active then
        { s with projectiles := s.projectiles.set i ⟨⟨(s.plants.get lane).position.x + 20, (s.plants.get lane).position.y⟩, true, (lane.val : Int)⟩ }
      else shootScan lane s rest := rfl

theorem ShootProjectile_onlyTurrets (lane : Fin LANE_COUNT) (s : Game) :
    OnlyTurretsChange s (ShootProjectile lane s) := by
  unfold ShootProjectile
  rcases scan_cases (fun i => !(s.projectiles.get i).active) _ s (shootScan lane s) rfl
      (shootScan_cons lane s) (List.finRange MAX_PROJECTILES) with h | ⟨j, _, h⟩
  · rw [h]; exact onlyTurrets_refl s
  · rw [h]; simp [OnlyTurretsChange]

theorem ShootProjectile_plants (lane : Fin LANE_COUNT) (s : Game) :
    (ShootProjectile lane s).plants = s.plants ∧
    (ShootProjectile lane s).plantCount = s.plantCount := by
  unfold ShootProjectile
  rcases scan_cases (fun i => !(s.projectiles.get i).active) _ s (shootScan lane s) rfl
      (shootScan_cons lane s) (List.finRange MAX_PROJECTILES) with h | ⟨j, _, h⟩
  · rw [h]; exact ⟨rfl, rfl⟩
  · rw [h]; exact ⟨rfl, rfl⟩

theorem onlyTurrets_setPlants (s t : Game) (pl : Vector Plant LANE_COUNT)
    (h : OnlyTurretsChange s t) : OnlyTurretsChange s { t with plants := pl } := h

theorem plantStep_onlyTurrets (s : Game) (i : Fin LANE_COUNT) :
    OnlyTurretsChange s (plantStep s i) := by
  unfold plantStep
  split
  · simp only []
    split
    · apply onlyTurrets_setPlants
      refine onlyTurrets_trans _ _ _ ?_ (ShootProjectile_onlyTurrets i _)
      exact onlyTurrets_setPlants s s _ (onlyTurrets_refl s)
    · simp [OnlyTurretsChange]
  · exact onlyTurrets_refl s

theorem updatePlants_onlyTurrets (s : Game) : OnlyTurretsChange s (updatePlants s) :=
  foldl_rel plantStep OnlyTurretsChange onlyTurrets_refl onlyTurrets_trans
    plantStep_onlyTurrets _ s

theorem projectileStep_onlyTurrets (s : Game) (i : Fin MAX_PROJECTILES) :
    OnlyTurretsChange s (projectileStep s i) := by
  unfold projectileStep
  split
  · simp only []
    split <;> simp [OnlyTurretsChange]
  · exact onlyTurrets_refl s

theorem UpdateProjectiles_onlyTurrets (s : Game) : OnlyTurretsChange s (UpdateProjectiles s) :=
  foldl_rel projectileStep OnlyTurretsChange onlyTurrets_refl onlyTurrets_trans
    projectileStep_onlyTurrets _ s

theorem collideScan_cons (coll : Collision) (i : Fin MAX_PROJECTILES) (s : Game)
    (j : Fin MAX_ROBOTS) (rest : List (Fin MAX_ROBOTS)) :
    collideScan coll i s (j :: rest) =
      if hits coll s i j then hitResult s i j else collideScan coll i s rest := by
  unfold hits hitResult damaged
  by_cases h : ((s.robots.get j).active &&
    coll (s.projectiles.get i).position 5
      ⟨(s.robots.get j).position.x, (s.robots.get j).position.y, 40, 40⟩) = true
  · by_cases hh : (s.robots.get j).health - 1 ≤ 0
    · simp only [collideScan, h, if_true, Vector.get_set_same, hh, vector_set_set]
    · simp only [collideScan, h, if_true, Vector.get_set_same, hh, if_false]
  · simp only [collideScan, h, if_false]
    simp

theorem onlyCombat_refl (s : Game) : OnlyCombatChanges s s := by
  simp [OnlyCombatChanges]

theorem onlyCombat_trans (a b c : Game) (h1 : OnlyCombatChanges a b)
    (h2 : OnlyCombatChanges b c) : OnlyCombatChanges a c := by
  obtain ⟨a1, a2, a3, a4, a5, a6, a7, a8, a9, a10, a11⟩ := h1
  obtain ⟨b1, b2, b3, b4, b5, b6, b7, b8, b9, b10, b11⟩ := h2
  refine ⟨b1.trans a1, b2.trans a2, b3.trans a3, b4.trans a4, b5.trans a5, b6.trans a6,
    b7.trans a7, b8.trans a8, b9.trans a9, b10.trans a10, fun j hj => ?_⟩
  have hb : (b.robots.get j).active = false := by rw [a11 j hj]; exact hj
  rw [b11 j hb, a11 j hj]

theorem hitResult_onlyCombat (coll : Collision) (s : Game) (i : Fin MAX_PROJECTILES)
    (j : Fin MAX_ROBOTS) (h : hits coll s i j = true) : OnlyCombatChanges s (hitResult s i j) := by
  refine ⟨rfl, rfl, rfl, rfl, rfl, rfl, rfl, rfl, rfl, rfl, fun k hk => ?_⟩
  have hne : j ≠ k := by
    intro e
    subst e
    simp [hits, hk] at h
  simp [hitResult, Vector.get_set_of_ne hne]

theorem collideStep_onlyCombat (coll : Collision) (s : Game) (i : Fin MAX_PROJECTILES) :
    OnlyCombatChanges s (collideStep coll s i) := by
  unfold collideStep
  split
  · rcases scan_cases (hits coll s i) (hitResult s i) s (collideScan coll i s) rfl
      (collideScan_cons coll i s) (List.finRange MAX_ROBOTS) with h | ⟨j, hj, h⟩
    · rw [h]; exact onlyCombat_refl s
    · rw [h]; exact hitResult_onlyCombat coll s i j hj
  · exact onlyCombat_refl s

theorem CheckCollisions_onlyCombat (coll : Collision) (s : Game) :
    OnlyCombatChanges s (CheckCollisions coll s) :=
  foldl_rel (collideStep coll) OnlyCombatChanges onlyCombat_refl onlyCombat_trans
    (collideStep_onlyCombat coll) _ s

/-! ## The frame as a whole -/

theorem spawnScan_cons (laneRoll : Int) (s : Game) (i : Fin MAX_ROBOTS)
    (rest : List (Fin MAX_ROBOTS)) :
    spawnScan laneRoll s (i :: rest) =
      if !(s.robots.get i).active then
        { s with robots := s.robots.set i { s.robots.get i with position := ⟨SCREEN_WIDTH, ((laneRoll * 100 + 50 : Int) : ℚ)⟩, active := true, health := 3 } }
      else spawnScan laneRoll s rest := rfl

/-- The spawn changes no field but `robots`. -/
theorem spawnStep_fields (inp : FrameInput) (s : Game) :
    ∃ rs, spawnStep inp s = { s with robots := rs } := by
  unfold spawnStep
  split
  · unfold SpawnRobot
    rcases scan_cases (fun i => !(s.robots.get i).active) _ s (spawnScan inp.laneRoll s) rfl
      (spawnScan_cons inp.laneRoll s) (List.finRange MAX_ROBOTS) with h | ⟨j, _, h⟩
    · exact ⟨s.robots, by rw [h]⟩
    · exact ⟨_, h⟩
  · exact ⟨s.robots, rfl⟩

/-- The clock part of `UpdateGame` in closed form. -/
theorem clockStep_eq (dt : ℚ) (s : Game) :
    clockStep dt s =
      { s with
        timeSinceLastUpdate :=
          if s.timeSinceLastUpdate + dt ≥ secondsPerUpdate then 0 else s.timeSinceLastUpdate + dt
        remainingTime := timeAfterClock dt s
        gameOver := s.gameOver || decide (timeAfterClock dt s ≤ 0)
        endMessage := if timeAfterClock dt s ≤ 0 then "YOU WON!" else s.endMessage } := by
  unfold timeAfterClock
  by_cases h1 : s.timeSinceLastUpdate + dt ≥ secondsPerUpdate
  · by_cases h2 : s.remainingTime - 1 ≤ 0
    · simp [clockStep, h1, h2, EndGame]
    · simp [clockStep, h1, h2, EndGame]
  · by_cases h2 : s.remainingTime ≤ 0
    · simp [clockStep, h1, h2, EndGame]
    · simp [clockStep, h1, h2, EndGame]

/-- The clock changes only the clock fields and, when time is up, the end of the match. -/
theorem clockStep_fields (dt : ℚ) (s : Game) :
    (clockStep dt s).plants = s.plants ∧ (clockStep dt s).robots = s.robots ∧
    (clockStep dt s).projectiles = s.projectiles ∧
    (clockStep dt s).gameRunning = s.gameRunning ∧ (clockStep dt s).score = s.score ∧
    (clockStep dt s).baseHealth = s.baseHealth ∧ (clockStep dt s).gameTime = s.gameTime ∧
    (clockStep dt s).robotSpeed = s.robotSpeed ∧ (clockStep dt s).plantCount = s.plantCount := by
  rw [clockStep_eq]
  simp

theorem clockStep_time_up (dt : ℚ) (s : Game) (h : (clockStep dt s).remainingTime ≤ 0) :
    (clockStep dt s).gameOver = true ∧ (clockStep dt s).endMessage = "YOU WON!" := by
  rw [clockStep_eq] at h ⊢
  simp only [] at h ⊢
  simp [h]

/-- The fields of the end of the match after a whole frame. -/
theorem UpdateGame_summary (coll : Collision) (inp : FrameInput) (s : Game) :
    (UpdateGame coll inp s).baseHealth = s.baseHealth - (breachCount (robotLoopEntry inp s) : Int) ∧
    (UpdateGame coll inp s).gameOver =
      ((clockStep inp.frameTime s).gameOver ||
        (decide (0 < breachCount (robotLoopEntry inp s)) &&
          decide (s.baseHealth - (breachCount (robotLoopEntry inp s) : Int) ≤ 0))) ∧
    (UpdateGame coll inp s).endMessage =
      (if 0 < breachCount (robotLoopEntry inp s) ∧
          s.baseHealth - (breachCount (robotLoopEntry inp s) : Int) ≤ 0
       then "YOU LOST!" else (clockStep inp.frameTime s).endMessage) ∧
    (UpdateGame coll inp s).remainingTime = (clockStep inp.frameTime s).remainingTime ∧
    (UpdateGame coll inp s).timeSinceLastUpdate = (clockStep inp.frameTime s).timeSinceLastUpdate ∧
    (UpdateGame coll inp s).robotSpeed = s.robotSpeed ∧
    (UpdateGame coll inp s).gameRunning = s.gameRunning ∧
    (UpdateGame coll inp s).gameTime = s.gameTime ∧
    ∀ j, ((moveRobots (robotLoopEntry inp s)).robots.get j).active = false →
      (UpdateGame coll inp s).robots.get j = (moveRobots (robotLoopEntry inp s)).robots.get j := by
  obtain ⟨rs, hrs⟩ := spawnStep_fields inp (clockStep inp.frameTime s)
  obtain ⟨-, -, -, c4, -, c6, c7, c8, -⟩ := clockStep_fields inp.frameTime s
  have he : robotLoopEntry inp s = { clockStep inp.frameTime s with robots := rs } := hrs
  set e := robotLoopEntry inp s with hedef
  have hm := moveRobots_eq e
  set m := moveRobots e with hmdef
  obtain ⟨a1, a2, a3, a4, a5, a6, a7, a8, a9, a10⟩ := clickStep_onlyTurrets inp m
  obtain ⟨b1, b2, b3, b4, b5, b6, b7, b8, b9, b10⟩ := updatePlants_onlyTurrets (clickStep inp m)
  obtain ⟨d1, d2, d3, d4, d5, d6, d7, d8, d9, d10⟩ :=
    UpdateProjectiles_onlyTurrets (updatePlants (clickStep inp m))
  obtain ⟨f1, f2, f3, f4, f5, f6, f7, f8, f9, f10, f11⟩ :=
    CheckCollisions_onlyCombat coll (UpdateProjectiles (updatePlants (clickStep inp m)))
  have hU : UpdateGame coll inp s =
      CheckCollisions coll (UpdateProjectiles (updatePlants (clickStep inp m))) := rfl
  have e1 : e.baseHealth = s.baseHealth := by rw [he]; exact c6
  have e2 : e.gameOver = (clockStep inp.frameTime s).gameOver := by rw [he]
  have e3 : e.endMessage = (clockStep inp.frameTime s).endMessage := by rw [he]
  have e4 : e.remainingTime = (clockStep inp.frameTime s).remainingTime := by rw [he]
  have e5 : e.timeSinceLastUpdate = (clockStep inp.frameTime s).timeSinceLastUpdate := by rw [he]
  have e6 : e.robotSpeed = s.robotSpeed := by rw [he]; exact c8
  have e7 : e.gameRunning = s.gameRunning := by rw [he]; exact c4
  have e8 : e.gameTime = s.gameTime := by rw [he]; exact c7
  rw [hU]
  refine ⟨?_, ?_, ?_, ?_, ?_, ?_, ?_, ?_, ?_⟩
  · rw [f4, d5, b5, a5, hm]; simp only []; rw [e1]
  · rw [f3, d3, b3, a3, hm]; simp only []; rw [e1, e2]
  · rw [f9, d10, b10, a10, hm]; simp only []; rw [e1, e3]
  · rw [f6, d7, b7, a7, hm]; simp only []; rw [e4]
  · rw [f7, d8, b8, a8, hm]; simp only []; rw [e5]
  · rw [f8, d9, b9, a9, hm]; simp only []; rw [e6]
  · rw [f2, d2, b2, a2, hm]; simp only []; rw [e7]
  · rw [f5, d6, b6, a6, hm]; simp only []; rw [e8]
  · intro j hj
    have hr : (UpdateProjectiles (updatePlants (clickStep inp m))).robots = m.robots := by
      rw [d1, b1, a1]
    rw [f11 j (by rw [hr]; exact hj), hr]

/-! ## Counting breaches -/

theorem movedRobot_get (s : Game) (i : Fin MAX_ROBOTS) :
    (moveRobots s).robots.get i = movedRobot s.robotSpeed (s.robots.get i) := by
  rw [moveRobots_eq]
  simp [Vector.get_map]

theorem breachCount_pos (s : Game) (i : Fin MAX_ROBOTS) (h : breaches s i = true) :
    0 < breachCount s :=
  List.countP_pos_iff.mpr ⟨i, List.mem_finRange i, h⟩

theorem breachCount_none (s : Game) (h : ∀ j, breaches s j = false) :
    breachCount s = 0 := by
  unfold breachCount
  rw [List.countP_eq_zero]
  intro j _
  simp [h j]

theorem breachCount_one (s : Game) (i : Fin MAX_ROBOTS) (hi : breaches s i = true)
    (hothers : ∀ j, j ≠ i → breaches s j = false) : breachCount s = 1 := by
  unfold breachCount
  have hcount : (List.finRange MAX_ROBOTS).countP (breaches s) =
      (List.finRange MAX_ROBOTS).count i := by
    unfold List.count
    apply List.countP_congr
    intro j _
    by_cases hj : j = i
    · subst hj; simp [hi]
    · simp [hothers j hj, hj]
  rw [hcount]
  exact List.count_eq_one_of_mem (List.nodup_finRange _) (List.mem_finRange i)

theorem breachCount_zero (s : Game) (h : ∀ j, (s.robots.get j).active = false) :
    breachCount s = 0 := by
  unfold breachCount
  rw [List.countP_eq_zero]
  intro j _
  simp [breaches, h j]

/-- In `lastSecondBreach` exactly the robot of slot 0 breaches in the next frame. -/
theorem lastSecondBreach_breaches :
    breaches (robotLoopEntry quietSecond lastSecondBreach) 0 = true ∧
    breachCount (robotLoopEntry quietSecond lastSecondBreach) = 1 := by
  have he : robotLoopEntry quietSecond lastSecondBreach = clockStep 1 lastSecondBreach := rfl
  obtain ⟨-, c2, -, -, -, -, -, c8, -⟩ := clockStep_fields 1 lastSecondBreach
  have hr : lastSecondBreach.robots.get 0 = ⟨⟨0, 50⟩, true, 3, 0⟩ := rfl
  have hv : lastSecondBreach.robotSpeed = 1 := rfl
  have hb : breaches (robotLoopEntry quietSecond lastSecondBreach) 0 = true := by
    unfold breaches
    rw [he, c2, c8, hr, hv]
    norm_num
  have hothers : ∀ j, j ≠ 0 → (lastSecondBreach.robots.get j).active = false := by decide
  refine ⟨hb, breachCount_one _ 0 hb fun j hj => ?_⟩
  unfold breaches
  rw [he, c2, hothers j hj]
  rfl

/-! ## A match without robots -/

theorem playFrames_over (coll : Collision) (inputs : List FrameInput) (s : Game)
    (h : s.gameOver = true) : playFrames coll s inputs = s := by
  induction inputs with
  | nil => rfl
  | cons inp rest ih =>
    have hstep : playFrame coll s inp = s := by simp [playFrame, h]
    unfold playFrames at ih ⊢
    rw [List.foldl_cons, hstep]
    exact ih

/-- A frame without spawn from a state without active robots only moves the clock. -/
theorem UpdateGame_quiet (coll : Collision) (inp : FrameInput) (s : Game)
    (hroll : 2 ≤ inp.spawnRoll) (hrob : ∀ j, (s.robots.get j).active = false) :
    (∀ j, ((UpdateGame coll inp s).robots.get j).active = false) ∧
    (UpdateGame coll inp s).baseHealth = s.baseHealth ∧
    (UpdateGame coll inp s).gameRunning = s.gameRunning ∧
    (UpdateGame coll inp s).gameOver = (clockStep inp.frameTime s).gameOver ∧
    (UpdateGame coll inp s).endMessage = (clockStep inp.frameTime s).endMessage ∧
    (UpdateGame coll inp s).remainingTime = (clockStep inp.frameTime s).remainingTime ∧
    (UpdateGame coll inp s).timeSinceLastUpdate =
      (clockStep inp.frameTime s).timeSinceLastUpdate := by
  have he : robotLoopEntry inp s = clockStep inp.frameTime s := by
    simp [robotLoopEntry, spawnStep, not_lt.mpr hroll]
  obtain ⟨-, c2, -, -, -, -, -, -, -⟩ := clockStep_fields inp.frameTime s
  have hrob2 : ∀ j, ((robotLoopEntry inp s).robots.get j).active = false := by
    intro j; rw [he, c2]; exact hrob j
  have hcount := breachCount_zero _ hrob2
  obtain ⟨h1, h2, h3, h4, h5, -, h7, -, h9⟩ := UpdateGame_summary coll inp s
  rw [hcount] at h1 h2 h3
  have hmoved : ∀ j, (moveRobots (robotLoopEntry inp s)).robots.get j =
      (robotLoopEntry inp s).robots.get j := by
    intro j
    rw [moveRobots_eq]
    simp [Vector.get_map, movedRobot, hrob2 j]
  refine ⟨fun j => ?_, by simpa using h1, h7, by simpa using h2, by simpa using h3, h4, h5⟩
  rw [h9 j (by rw [hmoved]; exact hrob2 j), hmoved]
  exact hrob2 j

theorem playFrames_quiet (coll : Collision) (inputs : List FrameInput) :
    ∀ (s : Game) (R : Nat), (∀ inp ∈ inputs, 2 ≤ inp.spawnRoll) →
      (∀ j, (s.robots.get j).active = false) → s.gameRunning = true → s.gameOver = false →
      s.remainingTime = (R : ℚ) → 0 < R →
      (playFrames coll s inputs).baseHealth = s.baseHealth ∧
      (R ≤ ticks s.timeSinceLastUpdate (inputs.map FrameInput.frameTime) →
        (playFrames coll s inputs).gameOver = true ∧
        (playFrames coll s inputs).endMessage = "YOU WON!") ∧
      (ticks s.timeSinceLastUpdate (inputs.map FrameInput.frameTime) < R →
        (playFrames coll s inputs).gameOver = false ∧
        (playFrames coll s inputs).remainingTime =
          (R : ℚ) - (ticks s.timeSinceLastUpdate (inputs.map FrameInput.frameTime) : ℚ)) := by
  induction inputs with
  | nil =>
    intro s R _ _ _ hgo hrem hR
    refine ⟨rfl, fun h => ?_, fun _ => ⟨hgo, ?_⟩⟩
    · simp [ticks] at h; omega
    · simp [playFrames, ticks, hrem]
  | cons inp rest ih =>
    intro s R hroll hrob hrun hgo hrem hR
    have hstep : playFrames coll s (inp :: rest) =
        playFrames coll (UpdateGame coll inp s) rest := by
      simp [playFrames, playFrame, hgo, hrun]
    obtain ⟨q1, q2, q3, q4, q5, q6, q7⟩ :=
      UpdateGame_quiet coll inp s (hroll inp (List.mem_cons_self inp rest)) hrob
    rw [clockStep_eq] at q4 q5 q6 q7
    simp only [timeAfterClock, hrem, hgo, Bool.false_or] at q4 q5 q6 q7
    have hroll2 : ∀ i ∈ rest, 2 ≤ i.spawnRoll := fun i hi => hroll i (List.mem_cons_of_mem inp hi)
    rw [hstep]
    simp only [List.map_cons, ticks]
    by_cases htick : s.timeSinceLastUpdate + inp.frameTime ≥ secondsPerUpdate
    · simp only [htick, if_true] at q4 q5 q6 q7 ⊢
      by_cases hone : R = 1
      · subst hone
        have hover : (UpdateGame coll inp s).gameOver = true := by rw [q4]; norm_num
        rw [playFrames_over coll rest _ hover]
        refine ⟨q2, fun _ => ⟨hover, ?_⟩, fun h => ?_⟩
        · rw [q5]; norm_num
        · omega
      · have hR2 : 0 < R - 1 := by omega
        have hcast : ((R - 1 : Nat) : ℚ) = (R : ℚ) - 1 := by
          rw [Nat.cast_sub (by omega)]; simp
        have hgo2 : (UpdateGame coll inp s).gameOver = false := by
          rw [q4]
          have : ¬ ((R : ℚ) - 1 ≤ 0) := by
            rw [← hcast]; exact not_le.mpr (by exact_mod_cast hR2)
          simp [this]
        obtain ⟨i1, i2, i3⟩ := ih (UpdateGame coll inp s) (R - 1) hroll2 q1 (q3.trans hrun) hgo2
          (by rw [q6, hcast]) hR2
        rw [q7] at i2 i3
        refine ⟨i1.trans q2, fun h => i2 (by omega), fun h => ?_⟩
        obtain ⟨j1, j2⟩ := i3 (by omega)
        refine ⟨j1, ?_⟩
        rw [j2, hcast]; push_cast; ring
    · simp only [htick, if_false] at q4 q5 q6 q7 ⊢
      have hgo2 : (UpdateGame coll inp s).gameOver = false := by
        rw [q4]
        have : ¬ ((R : ℚ) ≤ 0) := not_le.mpr (by exact_mod_cast hR)
        simp [this]
      obtain ⟨i1, i2, i3⟩ := ih (UpdateGame coll inp s) R hroll2 q1 (q3.trans hrun) hgo2 q6 hR
      rw [q7] at i2 i3
      exact ⟨i1.trans q2, i2, i3⟩

theorem ticks_replicate_one (n : Nat) : ticks 0 (List.replicate n 1) = n := by
  induction n with
  | zero => rfl
  | succ n ih => simp [List.replicate_succ, ticks, ih]

theorem ticks_replicate_slow (n : Nat) : ticks 0 (List.replicate (2 * n) (3 / 4)) = n := by
  induction n with
  | zero => rfl
  | succ n ih =>
    have h2 : 2 * (n + 1) = (2 * n + 1) + 1 := by ring
    rw [h2, List.replicate_succ, List.replicate_succ]
    have h1 : ¬ ((0 : ℚ) + 3 / 4 ≥ secondsPerUpdate) := by norm_num
    have h3 : (0 : ℚ) + 3 / 4 + 3 / 4 ≥ secondsPerUpdate := by norm_num
    simp only [ticks, h1, h3, if_true, if_false, ih]

/-! ## The projectile loop in closed form -/

theorem projectileStep_eq (s : Game) (i : Fin MAX_PROJECTILES) :
    projectileStep s i =
      { s with projectiles := s.projectiles.set i (advanced (s.projectiles.get i)) } := by
  unfold projectileStep advanced
  by_cases hact : (s.projectiles.get i).active = true
  · by_cases hx : (s.projectiles.get i).position.x + 5 > SCREEN_WIDTH
    · apply Game.ext <;> simp [hact, hx, Vector.get_set_same, vector_set_set]
    · apply Game.ext <;> simp [hact, hx, Vector.get_set_same]
  · apply Game.ext <;> simp [hact, vector_set_get]

theorem foldl_projectileStep (slots : List (Fin MAX_PROJECTILES)) :
    ∀ s : Game, slots.Nodup → slots.foldl projectileStep s = advanceOn slots s := by
  induction slots with
  | nil =>
    intro s _
    apply Game.ext <;> simp [advanceOn]
  | cons i rest ih =>
    intro s hnd
    have hi : i ∉ rest := (List.nodup_cons.mp hnd).1
    rw [List.foldl_cons, ih _ (List.nodup_cons.mp hnd).2, projectileStep_eq]
    unfold advanceOn
    apply Game.ext
    all_goals simp only []
    apply Vector.ext
    intro m
    simp only [Vector.get_ofFn, List.mem_cons]
    by_cases hm : m = i
    · subst hm; simp [hi, Vector.get_set_same]
    · have hne : i ≠ m := fun h => hm h.symm
      simp [hm, Vector.get_set_of_ne hne]

theorem UpdateProjectiles_eq (s : Game) :
    UpdateProjectiles s = { s with projectiles := s.projectiles.map advanced } := by
  unfold UpdateProjectiles
  rw [foldl_projectileStep _ s (List.nodup_finRange _)]
  unfold advanceOn
  apply Game.ext <;> simp only []
  apply Vector.ext
  intro m
  simp [Vector.get_ofFn, Vector.get_map, List.mem_finRange]

theorem UpdateProjectiles_iterate_get (s : Game) (j : Fin MAX_PROJECTILES) (k : Nat) :
    ((UpdateProjectiles^[k]) s).projectiles.get j = (advanced^[k]) (s.projectiles.get j) := by
  induction k with
  | zero => rfl
  | succ k ih =>
    rw [Function.iterate_succ_apply', Function.iterate_succ_apply', UpdateProjectiles_eq]
    simp only [Vector.get_map]
    rw [ih]

/-- An active projectile stays active while its `x` has not passed the screen width. -/
theorem advanced_iterate (p : Projectile) (hact : p.active = true) :
    ∀ k : Nat, p.position.x + 5 * (k : ℚ) ≤ SCREEN_WIDTH →
      (advanced^[k]) p = { p with position := ⟨p.position.x + 5 * (k : ℚ), p.position.y⟩ } := by
  intro k
  induction k with
  | zero => intro _; simp
  | succ k ih =>
    intro hk
    push_cast at hk
    rw [Function.iterate_succ_apply', ih (by linarith)]
    have hx : ¬ (p.position.x + 5 * (k : ℚ) + 5 > SCREEN_WIDTH) := by
      rw [not_lt]; linarith
    simp only [advanced, hact, if_true, hx, if_false]
    push_cast
    ring_nf

theorem ShootProjectile_get (lane : Fin LANE_COUNT) (s : Game) (j : Fin MAX_PROJECTILES)
    (hfree : (s.projectiles.get j).active = false)
    (hlow : ∀ k, k < j → (s.projectiles.get k).active = true) :
    ShootProjectile lane s =
      { s with projectiles := s.projectiles.set j ⟨⟨(s.plants.get lane).position.x + 20, (s.plants.get lane).position.y⟩, true, (lane.val : Int)⟩ } := by
  unfold ShootProjectile
  exact scan_first (fun i => !(s.projectiles.get i).active) _ (shootScan lane s)
    (shootScan_cons lane s) j (by simp [hfree]) (fun k hk => by simp [hlow k hk])
    _ (List.pairwise_lt_finRange _) (List.mem_finRange j)

/-! ## A lone robot on Hard -/

/-- A lone robot marching at speed 3 from `x = 800`: position and base health after `k` passes
of the robot loop, as long as `800 - 3 k` is not negative. -/
theorem march (s : Game) (i : Fin MAX_ROBOTS) (hv : s.robotSpeed = HARD_ROBOT_SPEED)
    (hact : (s.robots.get i).active = true) (hx : (s.robots.get i).position.x = SCREEN_WIDTH)
    (hothers : ∀ j, j ≠ i → (s.robots.get j).active = false) :
    ∀ k : Nat, k ≤ 266 →
      ((moveRobots^[k]) s).robotSpeed = 3 ∧
      (((moveRobots^[k]) s).robots.get i).active = true ∧
      (((moveRobots^[k]) s).robots.get i).position.x = 800 - 3 * (k : ℚ) ∧
      (∀ j, j ≠ i → (((moveRobots^[k]) s).robots.get j).active = false) ∧
      ((moveRobots^[k]) s).baseHealth = s.baseHealth := by
  intro k
  induction k with
  | zero => intro _; exact ⟨hv, hact, by simp [hx], hothers, rfl⟩
  | succ k ih =>
    intro hk
    obtain ⟨i1, i2, i3, i4, i5⟩ := ih (by omega)
    have hkq : ((k : ℚ) + 1) ≤ 266 := by exact_mod_cast hk
    have hnb : ∀ j, breaches ((moveRobots^[k]) s) j = false := by
      intro j
      by_cases hj : j = i
      · subst hj
        have : ¬ (800 - 3 * (k : ℚ) - 3 < 0) := by rw [not_lt]; linarith
        simp [breaches, i1, i3, this]
      · simp [breaches, i4 j hj]
    have hc := breachCount_none _ hnb
    rw [Function.iterate_succ_apply']
    refine ⟨?_, ?_, ?_, ?_, ?_⟩
    · rw [moveRobots_eq]; exact i1
    · rw [movedRobot_get]
      have : ¬ (800 - 3 * (k : ℚ) - 3 < 0) := by rw [not_lt]; linarith
      simp [movedRobot, i1, i2, i3, this]
    · rw [movedRobot_get]
      have : ¬ (800 - 3 * (k : ℚ) - 3 < 0) := by rw [not_lt]; linarith
      simp [movedRobot, i1, i2, i3, this]
      ring
    · intro j hj
      rw [movedRobot_get]
      simp [movedRobot, i4 j hj]
    · rw [moveRobots_eq]
      simp [hc, i5]

theorem march_end (s : Game) (i : Fin MAX_ROBOTS) (hv : s.robotSpeed = HARD_ROBOT_SPEED)
    (hact : (s.robots.get i).active = true) (hx : (s.robots.get i).position.x = SCREEN_WIDTH)
    (hothers : ∀ j, j ≠ i → (s.robots.get j).active = false) :
    (((moveRobots^[267]) s).robots.get i).active = false ∧
    (((moveRobots^[267]) s).robots.get i).position.x = -1 ∧
    ((moveRobots^[267]) s).baseHealth = s.baseHealth - 1 := by
  obtain ⟨i1, i2, i3, i4, i5⟩ := march s i hv hact hx hothers 266 le_rfl
  have hit : (moveRobots^[267]) s = moveRobots ((moveRobots^[266]) s) :=
    Function.iterate_succ_apply' moveRobots 266 s
  rw [hit]
  generalize (moveRobots^[266]) s = t at i1 i2 i3 i4 i5 ⊢
  have hx2 : (t.robots.get i).position.x = 2 := by rw [i3]; norm_num
  have hlt : (2 : ℚ) - 3 < 0 := by norm_num
  have hb : breaches t i = true := by
    simp [breaches, i1, i2, hx2, hlt]
  have hc := breachCount_one _ i hb (fun j hj => by simp [breaches, i4 j hj])
  refine ⟨?_, ?_, ?_⟩
  · rw [movedRobot_get]
    simp [movedRobot, i1, i2, hx2, hlt]
  · rw [movedRobot_get]
    simp [movedRobot, i1, i2, hx2, hlt]
    norm_num
  · rw [moveRobots_eq]
    simp [hc, i5]

/-! ## The spawn scan -/

theorem SpawnRobot_get (r : Int) (s : Game) (j : Fin MAX_ROBOTS)
    (hfree : (s.robots.get j).active = false)
    (hlow : ∀ k, k < j → (s.robots.get k).active = true) :
    SpawnRobot r s =
      { s with robots := s.robots.set j { s.robots.get j with position := ⟨SCREEN_WIDTH, ((r * 100 + 50 : Int) : ℚ)⟩, active := true, health := 3 } } := by
  unfold SpawnRobot
  exact scan_first (fun i => !(s.robots.get i).active) _ (spawnScan r s)
    (spawnScan_cons r s) j (by simp [hfree]) (fun k hk => by simp [hlow k hk])
    _ (List.pairwise_lt_finRange _) (List.mem_finRange j)

theorem SpawnRobot_full (r : Int) (s : Game) (hall : ∀ j, (s.robots.get j).active = true) :
    SpawnRobot r s = s := by
  unfold SpawnRobot
  exact scan_none (fun i => !(s.robots.get i).active) _ s (spawnScan r s) rfl
    (spawnScan_cons r s) _ (fun k _ => by simp [hall k])

/-! ## Loop invariants and the score -/

/-- A property kept by every pass of a loop body is kept by the loop. -/
theorem foldl_inv {α β : Type} (step : α → β → α) (P : α → Prop)
    (hstep : ∀ a b, P a → P (step a b)) : ∀ (l : List β) (a : α), P a → P (l.foldl step a) := by
  intro l
  induction l with
  | nil => intro a h; exact h
  | cons b rest ih => intro a h; exact ih (step a b) (hstep a b h)

/-- The state handed to the collision pass has the score of the start of the frame. -/
theorem beforeCollisions_score (inp : FrameInput) (s : Game) :
    (UpdateProjectiles (updatePlants (clickStep inp (moveRobots (robotLoopEntry inp s))))).score =
      s.score := by
  obtain ⟨rs, hrs⟩ := spawnStep_fields inp (clockStep inp.frameTime s)
  obtain ⟨-, -, -, -, c5, -⟩ := clockStep_fields inp.frameTime s
  have he : robotLoopEntry inp s = { clockStep inp.frameTime s with robots := rs } := hrs
  have hm := moveRobots_eq (robotLoopEntry inp s)
  obtain ⟨-, -, -, a4, -⟩ := clickStep_onlyTurrets inp (moveRobots (robotLoopEntry inp s))
  obtain ⟨-, -, -, b4, -⟩ :=
    updatePlants_onlyTurrets (clickStep inp (moveRobots (robotLoopEntry inp s)))
  obtain ⟨-, -, -, d4, -⟩ :=
    UpdateProjectiles_onlyTurrets (updatePlants (clickStep inp (moveRobots (robotLoopEntry inp s))))
  rw [d4, b4, a4, hm]
  simp only []
  rw [he]
  exact c5

theorem collideStep_score (coll : Collision) (s : Game) (i : Fin MAX_PROJECTILES) :
    (collideStep coll s i).score = s.score ∨ (collideStep coll s i).score = s.score + 10 := by
  unfold collideStep
  split
  · rcases scan_cases (hits coll s i) (hitResult s i) s (collideScan coll i s) rfl
      (collideScan_cons coll i s) (List.finRange MAX_ROBOTS) with h | ⟨j, _, h⟩
    · rw [h]; exact Or.inl rfl
    · rw [h]
      unfold hitResult
      simp only []
      split
      · exact Or.inr rfl
      · exact Or.inl rfl
  · exact Or.inl rfl

theorem CheckCollisions_score (coll : Collision) (s : Game) :
    ∃ n : Nat, (CheckCollisions coll s).score = s.score + 10 * (n : Int) := by
  unfold CheckCollisions
  apply foldl_inv (collideStep coll) (fun t => ∃ n : Nat, t.score = s.score + 10 * (n : Int))
  · intro t i ⟨n, hn⟩
    rcases collideStep_score coll t i with h | h
    · exact ⟨n, by rw [h, hn]⟩
    · exact ⟨n + 1, by rw [h, hn]; push_cast; ring⟩
  · exact ⟨0, by simp⟩

/-! ## Robot health -/

theorem collideStep_healthy (coll : Collision) (s : Game) (i : Fin MAX_PROJECTILES)
    (h : RobotsHealthy s) : RobotsHealthy (collideStep coll s i) := by
  unfold collideStep
  split
  · rcases scan_cases (hits coll s i) (hitResult s i) s (collideScan coll i s) rfl
      (collideScan_cons coll i s) (List.finRange MAX_ROBOTS) with e | ⟨j, hj, e⟩
    · rw [e]; exact h
    · rw [e]
      have hact : (s.robots.get j).active = true := by
        simp only [hits, Bool.and_eq_true] at hj
        exact hj.1
      obtain ⟨h1, h3⟩ := h j hact
      intro k hk
      by_cases hkj : j = k
      · subst hkj
        simp only [hitResult, Vector.get_set_same] at hk ⊢
        unfold damaged at hk ⊢
        by_cases hz : (s.robots.get j).health - 1 ≤ 0
        · simp [hz] at hk
        · simp only [hz, if_false]
          constructor <;> omega
      · simp only [hitResult, Vector.get_set_of_ne hkj] at hk ⊢
        exact h k hk
  · exact h

theorem CheckCollisions_healthy (coll : Collision) (s : Game) (h : RobotsHealthy s) :
    RobotsHealthy (CheckCollisions coll s) :=
  foldl_inv (collideStep coll) RobotsHealthy (collideStep_healthy coll) _ s h

theorem spawnStep_healthy (inp : FrameInput) (s : Game) (h : RobotsHealthy s) :
    RobotsHealthy (spawnStep inp s) := by
  unfold spawnStep
  split
  · unfold SpawnRobot
    rcases scan_cases (fun i => !(s.robots.get i).active) _ s (spawnScan inp.laneRoll s) rfl
      (spawnScan_cons inp.laneRoll s) (List.finRange MAX_ROBOTS) with e | ⟨j, _, e⟩
    · rw [e]; exact h
    · rw [e]
      intro k hk
      by_cases hkj : j = k
      · subst hkj
        simp only [Vector.get_set_same]
        constructor <;> norm_num
      · simp only [Vector.get_set_of_ne hkj] at hk ⊢
        exact h k hk
  · exact h

theorem moveRobots_healthy (s : Game) (h : RobotsHealthy s) : RobotsHealthy (moveRobots s) := by
  intro k hk
  rw [movedRobot_get] at hk ⊢
  unfold movedRobot at hk ⊢
  by_cases ha : (s.robots.get k).active = true
  · by_cases hx : (s.robots.get k).position.x - s.robotSpeed < 0
    · simp [ha, hx] at hk
    · simp only [ha, hx, if_true, if_false]
      exact h k ha
  · simp only [ha] at hk ⊢
    simp at hk
    exact absurd hk ha

theorem UpdateGame_healthy (coll : Collision) (inp : FrameInput) (s : Game)
    (h : RobotsHealthy s) : RobotsHealthy (UpdateGame coll inp s) := by
  have h0 : RobotsHealthy (clockStep inp.frameTime s) := by
    intro k hk
    rw [(clockStep_fields inp.frameTime s).2.1] at hk ⊢
    exact h k hk
  have h1 := moveRobots_healthy _ (spawnStep_healthy inp _ h0)
  have hr : (UpdateProjectiles (updatePlants (clickStep inp
      (moveRobots (robotLoopEntry inp s))))).robots = (moveRobots (robotLoopEntry inp s)).robots := by
    rw [(UpdateProjectiles_onlyTurrets _).1, (updatePlants_onlyTurrets _).1,
      (clickStep_onlyTurrets inp _).1]
  have h2 : RobotsHealthy (UpdateProjectiles (updatePlants (clickStep inp
      (moveRobots (robotLoopEntry inp s))))) := by
    intro k hk
    rw [hr] at hk ⊢
    exact h1 k hk
  exact CheckCollisions_healthy coll _ h2

theorem InitGame_inactive (s : Game) :
    (∀ i, ((InitGame s).plants.get i).active = false) ∧
    (∀ i, ((InitGame s).robots.get i).active = false) ∧
    (∀ i, ((InitGame s).projectiles.get i).active = false) ∧ (InitGame s).plantCount = 0 := by
  simp [InitGame, Vector.get_map, Vector.get_ofFn]

theorem runFrames_healthy (coll : Collision) (start : Game) (inputs : List FrameInput) :
    RobotsHealthy (runFrames coll (InitGame start) inputs) := by
  unfold runFrames
  apply foldl_inv (fun g inp => UpdateGame coll inp g) RobotsHealthy
    (fun g inp hg => UpdateGame_healthy coll inp g hg)
  intro k hk
  rw [(InitGame_inactive start).2.1 k] at hk
  exact absurd hk (by decide)

/-! ## Frames one at a time -/

theorem CheckCollisions_noCollision (s : Game) : CheckCollisions noCollision s = s := by
  unfold CheckCollisions
  apply foldl_inv (collideStep noCollision) (fun t => t = s) _ _ s rfl
  intro t i ht
  rw [ht]
  unfold collideStep
  split
  · exact scan_none (hits noCollision s i) (hitResult s i) s (collideScan noCollision i s) rfl
      (collideScan_cons noCollision i s) _ (fun k _ => by simp [hits, noCollision])
  · rfl

theorem runFrames_single (coll : Collision) (s : Game) (inp : FrameInput) :
    runFrames coll s [inp] =
      CheckCollisions coll (UpdateProjectiles (updatePlants (clickStep inp
        (moveRobots (robotLoopEntry inp s))))) := by
  unfold runFrames
  rw [List.foldl_cons, List.foldl_nil]
  rfl

theorem runFrames_cons (coll : Collision) (s : Game) (inp : FrameInput)
    (rest : List FrameInput) :
    runFrames coll s (inp :: rest) = runFrames coll (UpdateGame coll inp s) rest := by
  unfold runFrames
  rw [List.foldl_cons]

theorem runFrames_append (coll : Collision) (s : Game) (inputs rest : List FrameInput) :
    runFrames coll s (inputs ++ rest) = runFrames coll (runFrames coll s inputs) rest := by
  unfold runFrames
  rw [List.foldl_append]

theorem robotLoopEntry_spawn (inp : FrameInput) (s : Game) (h : inp.spawnRoll < 2) :
    robotLoopEntry inp s = SpawnRobot inp.laneRoll (clockStep inp.frameTime s) := by
  simp [robotLoopEntry, spawnStep, h]

theorem robotLoopEntry_quiet (inp : FrameInput) (s : Game) (h : 2 ≤ inp.spawnRoll) :
    robotLoopEntry inp s = clockStep inp.frameTime s := by
  simp [robotLoopEntry, spawnStep, not_lt.mpr h]

/-- After `spawnFrame` on a fresh Hard match the robot of slot 0 is active. -/
theorem spawnFrame_robot :
    ((runFrames noCollision (InitGame hardStart) [spawnFrame]).robots.get 0).active = true := by
  have hU := runFrames_single noCollision (InitGame hardStart) spawnFrame
  have he : robotLoopEntry spawnFrame (InitGame hardStart) =
      SpawnRobot 2 (clockStep 0 (InitGame hardStart)) :=
    robotLoopEntry_spawn spawnFrame _ (by decide)
  obtain ⟨-, c2, -, -, -, -, -, c8, -⟩ := clockStep_fields 0 (InitGame hardStart)
  have hfree : ((clockStep 0 (InitGame hardStart)).robots.get 0).active = false := by
    rw [c2]; rfl
  have hlow : ∀ k : Fin MAX_ROBOTS, k < 0 →
      ((clockStep 0 (InitGame hardStart)).robots.get k).active = true :=
    fun k hk => absurd hk (by simp)
  have hv : (InitGame hardStart).robotSpeed = 3 := rfl
  rw [hU, CheckCollisions_noCollision, (UpdateProjectiles_onlyTurrets _).1,
    (updatePlants_onlyTurrets _).1, (clickStep_onlyTurrets spawnFrame _).1, movedRobot_get, he,
    SpawnRobot_get 2 _ 0 hfree hlow]
  simp only [Vector.get_set_same, c8, hv, movedRobot]
  norm_num

/-! ## The difficulty screen -/

theorem DifficultyScreen_running (polls : List (Bool × Bool)) (s : Game)
    (h : s.gameRunning = true) : DifficultyScreen polls s = s := by
  cases polls with
  | nil => rfl
  | cons p rest => simp [DifficultyScreen, h]

theorem DifficultyScreen_idle (n : Nat) (polls : List (Bool × Bool)) :
    DifficultyScreen (List.replicate n (false, false) ++ polls) initialState =
      DifficultyScreen polls initialState := by
  induction n with
  | zero => rfl
  | succ n ih =>
    rw [List.replicate_succ, List.cons_append]
    have hstep : DifficultyScreenFrame false false initialState = initialState := rfl
    have hcond : (!initialState.gameRunning && !initialState.gameOver) = true := rfl
    simp only [DifficultyScreen, hcond, if_true, hstep]
    exact ih

theorem chooseEasy_eq (n : Nat) (later : List (Bool × Bool)) : chooseEasy n later = easyStart := by
  unfold chooseEasy
  rw [DifficultyScreen_idle]
  have h1 : DifficultyScreen ((true, false) :: later) initialState =
      DifficultyScreen later easyStart := rfl
  rw [h1, DifficultyScreen_running later easyStart rfl]

theorem chooseHard_eq (n : Nat) (later : List (Bool × Bool)) : chooseHard n later = hardStart := by
  unfold chooseHard
  rw [DifficultyScreen_idle]
  have h1 : DifficultyScreen ((false, true) :: later) initialState =
      DifficultyScreen later hardStart := rfl
  rw [h1, DifficultyScreen_running later hardStart rfl]

/-! ## After a restart -/

theorem restart_fields (s : Game) :
    (restart s).gameOver = false ∧ (restart s).remainingTime = (s.gameTime : ℚ) ∧
    (restart s).baseHealth = s.baseHealth ∧
    ∀ j, ((restart s).robots.get j).active = false := by
  simp [restart, InitGame, Vector.get_map]

/-- After a restart no robot is active, so no robot breaches in a frame without spawn. -/
theorem restartedAfterLoss_quiet :
    restartedAfterLoss.gameOver = false ∧
    breachCount (robotLoopEntry quietSecond restartedAfterLoss) = 0 ∧
    0 < (clockStep quietSecond.frameTime restartedAfterLoss).remainingTime := by
  obtain ⟨r1, r2, -, r4⟩ := restart_fields (UpdateGame noCollision quietSecond lastSecondBreach)
  have he := robotLoopEntry_quiet quietSecond restartedAfterLoss (by decide)
  obtain ⟨-, c2, -⟩ := clockStep_fields quietSecond.frameTime restartedAfterLoss
  have hgt : (UpdateGame noCollision quietSecond lastSecondBreach).gameTime = 60 := by
    rw [(UpdateGame_summary noCollision quietSecond lastSecondBreach).2.2.2.2.2.2.2.1]
    rfl
  have hrem : restartedAfterLoss.remainingTime = 60 := by
    unfold restartedAfterLoss
    rw [r2, hgt]
    norm_num
  refine ⟨r1, ?_, ?_⟩
  · apply breachCount_zero
    intro j
    rw [he, c2]
    exact r4 j
  · rw [clockStep_eq]
    simp only [timeAfterClock, hrem]
    split <;> norm_num

/-! ## The turret loop in closed form -/

theorem shootScan_setPlants (lane : Fin LANE_COUNT) (g : Game) (pl : Vector Plant LANE_COUNT)
    (hpos : (pl.get lane).position = (g.plants.get lane).position) :
    ∀ slots : List (Fin MAX_PROJECTILES),
      shootScan lane { g with plants := pl } slots =
        { shootScan lane g slots with plants := pl } := by
  intro slots
  induction slots with
  | nil => rfl
  | cons i rest ih =>
    rw [shootScan_cons, shootScan_cons]
    by_cases h : (g.projectiles.get i).active = true
    · simp only [h, Bool.not_true, Bool.false_eq_true, if_false]
      exact ih
    · simp only [h, Bool.not_false, if_true, hpos]

theorem ShootProjectile_setPlants (lane : Fin LANE_COUNT) (g : Game)
    (pl : Vector Plant LANE_COUNT)
    (hpos : (pl.get lane).position = (g.plants.get lane).position) :
    ShootProjectile lane { g with plants := pl } = { ShootProjectile lane g with plants := pl } :=
  shootScan_setPlants lane g pl hpos _

theorem tickedPlant_fields (p : Plant) :
    (tickedPlant p).position = p.position ∧ (tickedPlant p).active = p.active := by
  unfold tickedPlant
  split
  · split <;> exact ⟨rfl, rfl⟩
  · exact ⟨rfl, rfl⟩

/-- The body of the turret loop in closed form. -/
theorem plantStep_eq (s : Game) (i : Fin LANE_COUNT) :
    plantStep s i =
      { (if fires s i then ShootProjectile i s else s) with
        plants := s.plants.set i (tickedPlant (s.plants.get i)) } := by
  unfold plantStep fires tickedPlant
  by_cases hact : (s.plants.get i).active = true
  · by_cases ht : (s.plants.get i).shootTimer - 1 ≤ 0
    · simp only [hact, ht, if_true, Vector.get_set_same, Bool.true_and, decide_True]
      rw [ShootProjectile_setPlants i s _ (by simp [Vector.get_set_same])]
      simp only [Vector.get_set_same, vector_set_set]
    · simp only [hact, ht, if_true, if_false, Vector.get_set_same, Bool.true_and, decide_False,
        Bool.false_eq_true]
  · simp only [hact, if_false, Bool.false_and, Bool.false_eq_true]
    apply Game.ext <;> simp [vector_set_get]

theorem shotsFrom_setPlants (sel : Fin LANE_COUNT → Bool) (pl : Vector Plant LANE_COUNT)
    (slots : List (Fin LANE_COUNT)) :
    ∀ g : Game, (∀ k, (pl.get k).position = (g.plants.get k).position) →
      shotsFrom sel { g with plants := pl } slots = { shotsFrom sel g slots with plants := pl } := by
  induction slots with
  | nil => intro g _; rfl
  | cons i rest ih =>
    intro g hpos
    unfold shotsFrom at ih ⊢
    rw [List.foldl_cons, List.foldl_cons]
    by_cases hs : sel i = true
    · simp only [hs, if_true]
      rw [ShootProjectile_setPlants i g pl (hpos i)]
      exact ih (ShootProjectile i g) (fun k => by rw [(ShootProjectile_plants i g).1]; exact hpos k)
    · simp only [hs, if_false]
      exact ih g hpos

theorem shotsFrom_congr (sel sel2 : Fin LANE_COUNT → Bool) (slots : List (Fin LANE_COUNT))
    (h : ∀ k ∈ slots, sel k = sel2 k) :
    ∀ g : Game, shotsFrom sel g slots = shotsFrom sel2 g slots := by
  induction slots with
  | nil => intro g; rfl
  | cons i rest ih =>
    intro g
    unfold shotsFrom at ih ⊢
    rw [List.foldl_cons, List.foldl_cons, h i (List.mem_cons_self i rest)]
    exact ih (fun k hk => h k (List.mem_cons_of_mem i hk)) _

theorem shotsFrom_plants (sel : Fin LANE_COUNT → Bool) (slots : List (Fin LANE_COUNT)) :
    ∀ g : Game, (shotsFrom sel g slots).plants = g.plants := by
  induction slots with
  | nil => intro g; rfl
  | cons i rest ih =>
    intro g
    unfold shotsFrom at ih ⊢
    rw [List.foldl_cons, ih]
    split
    · exact (ShootProjectile_plants i g).1
    · rfl

theorem foldl_plantStep (slots : List (Fin LANE_COUNT)) :
    ∀ s : Game, slots.Nodup →
      slots.foldl plantStep s =
        { shotsFrom (fires s) s slots with plants := tickedOn slots s.plants } := by
  induction slots with
  | nil =>
    intro s _
    apply Game.ext <;> simp [shotsFrom, tickedOn]
  | cons i rest ih =>
    intro s hnd
    have hi : i ∉ rest := (List.nodup_cons.mp hnd).1
    rw [List.foldl_cons, ih _ (List.nodup_cons.mp hnd).2]
    have hsel : ∀ k ∈ rest, fires (plantStep s i) k = fires s k := by
      intro k hk
      have hne : i ≠ k := fun e => hi (e ▸ hk)
      rw [plantStep_eq]
      simp [fires, Vector.get_set_of_ne hne]
    rw [shotsFrom_congr _ _ rest hsel, plantStep_eq]
    have hX : (if fires s i = true then ShootProjectile i s else s).plants = s.plants := by
      split
      · exact (ShootProjectile_plants i s).1
      · rfl
    rw [shotsFrom_setPlants (fires s) _ rest _ (fun k => by
      rw [hX]
      by_cases hk : i = k
      · subst hk; rw [Vector.get_set_same]; exact (tickedPlant_fields _).1
      · rw [Vector.get_set_of_ne hk])]
    have hcons : shotsFrom (fires s) s (i :: rest) =
        shotsFrom (fires s) (if fires s i = true then ShootProjectile i s else s) rest := by
      unfold shotsFrom
      rw [List.foldl_cons]
    rw [hcons]
    apply Game.ext
    all_goals simp only []
    apply Vector.ext
    intro m
    simp only [tickedOn, Vector.get_ofFn, List.mem_cons]
    by_cases hm : m = i
    · subst hm; simp [hi, Vector.get_set_same]
    · have hne : i ≠ m := fun h => hm h.symm
      simp [hm, Vector.get_set_of_ne hne]

/-- The turret loop in closed form: every countdown is ticked, and the turrets that fire, as
decided on the state at the start of the loop, shoot in slot order. -/
theorem updatePlants_eq (s : Game) :
    updatePlants s =
      { shotsFrom (fires s) s (List.finRange LANE_COUNT) with
        plants := s.plants.map tickedPlant } := by
  unfold updatePlants
  rw [foldl_plantStep _ s (List.nodup_finRange _)]
  apply Game.ext <;> simp only []
  apply Vector.ext
  intro m
  simp [tickedOn, Vector.get_ofFn, Vector.get_map, List.mem_finRange]

/-! ## Turrets over the frames -/

/-- What `PlacePlant` can do: nothing, or fill one inactive slot and add 1 to the count. -/
theorem PlacePlant_cases (P : Vector2) (s : Game) :
    PlacePlant P s = s ∨
    ∃ j, (s.plants.get j).active = false ∧
      PlacePlant P s =
        { s with
          plants := s.plants.set j { position := P, active := true, shootTimer := 60 }
          plantCount := s.plantCount + 1 } := by
  unfold PlacePlant
  split
  · exact Or.inl rfl
  · rcases scan_cases (fun i => !(s.plants.get i).active) _ s (placeScan P s) rfl
      (placeScan_cons P s) (List.finRange LANE_COUNT) with h | ⟨j, hj, h⟩
    · exact Or.inl h
    · exact Or.inr ⟨j, by simpa using hj, h⟩

theorem PlacePlant_get (P : Vector2) (s : Game) (j : Fin LANE_COUNT) (h : s.plantCount < 7)
    (hfree : (s.plants.get j).active = false)
    (hlow : ∀ k, k < j → (s.plants.get k).active = true) :
    PlacePlant P s =
      { s with
        plants := s.plants.set j { position := P, active := true, shootTimer := 60 }
        plantCount := s.plantCount + 1 } := by
  have hlt : ¬ s.plantCount ≥ 7 := not_le.mpr h
  simp only [PlacePlant, hlt, if_false]
  exact scan_first (fun i => !(s.plants.get i).active) _ (placeScan P s)
    (placeScan_cons P s) j (by simp [hfree]) (fun k hk => by simp [hlow k hk])
    _ (List.pairwise_lt_finRange _) (List.mem_finRange j)

theorem PlacePlant_active_same (P : Vector2) (s : Game) (i : Fin LANE_COUNT)
    (h : (s.plants.get i).active = true) : (PlacePlant P s).plants.get i = s.plants.get i := by
  rcases PlacePlant_cases P s with e | ⟨j, hj, e⟩
  · rw [e]
  · rw [e]
    have hne : j ≠ i := by
      intro e2
      rw [e2, h] at hj
      exact absurd hj (by decide)
    simp only [Vector.get_set_of_ne hne]

theorem beforeClick_turrets (inp : FrameInput) (s : Game) :
    (moveRobots (robotLoopEntry inp s)).plants = s.plants ∧
    (moveRobots (robotLoopEntry inp s)).plantCount = s.plantCount := by
  obtain ⟨rs, hrs⟩ := spawnStep_fields inp (clockStep inp.frameTime s)
  obtain ⟨c1, -, -, -, -, -, -, -, c9⟩ := clockStep_fields inp.frameTime s
  have he : robotLoopEntry inp s = { clockStep inp.frameTime s with robots := rs } := hrs
  have hm := moveRobots_eq (robotLoopEntry inp s)
  constructor
  · rw [hm]; simp only []; rw [he]; exact c1
  · rw [hm]; simp only []; rw [he]; exact c9

theorem turretLoopEntry_active (inp : FrameInput) (s : Game) (i : Fin LANE_COUNT)
    (h : (s.plants.get i).active = true) :
    (turretLoopEntry inp s).plants.get i = s.plants.get i := by
  obtain ⟨b1, -⟩ := beforeClick_turrets inp s
  unfold turretLoopEntry clickStep
  split
  · rw [PlacePlant_active_same _ _ i (by rw [b1]; exact h), b1]
  · rw [b1]

theorem turretLoopEntry_placed (inp : FrameInput) (s : Game) (i : Fin LANE_COUNT) (P : Vector2)
    (hclick : inp.click = some P) (hcount : s.plantCount < 7)
    (hfree : (s.plants.get i).active = false)
    (hlow : ∀ k, k < i → (s.plants.get k).active = true) :
    (turretLoopEntry inp s).plants.get i = ⟨P, true, 60⟩ := by
  obtain ⟨b1, b2⟩ := beforeClick_turrets inp s
  unfold turretLoopEntry clickStep
  rw [hclick]
  simp only []
  rw [PlacePlant_get P _ i (by rw [b2]; exact hcount) (by rw [b1]; exact hfree)
    (fun k hk => by rw [b1]; exact hlow k hk)]
  simp only [Vector.get_set_same]

theorem UpdateGame_plants (coll : Collision) (inp : FrameInput) (s : Game) :
    (UpdateGame coll inp s).plants = (turretLoopEntry inp s).plants.map tickedPlant := by
  have hU : UpdateGame coll inp s =
      CheckCollisions coll (UpdateProjectiles (updatePlants (turretLoopEntry inp s))) := rfl
  rw [hU, (CheckCollisions_onlyCombat coll _).1, UpdateProjectiles_eq, updatePlants_eq]

theorem UpdateGame_plant_active (coll : Collision) (inp : FrameInput) (s : Game)
    (i : Fin LANE_COUNT) (h : (s.plants.get i).active = true) :
    (UpdateGame coll inp s).plants.get i = tickedPlant (s.plants.get i) := by
  rw [UpdateGame_plants, Vector.get_map, turretLoopEntry_active inp s i h]

theorem runFrames_plant (coll : Collision) (i : Fin LANE_COUNT) (inputs : List FrameInput) :
    ∀ s : Game, (s.plants.get i).active = true →
      (runFrames coll s inputs).plants.get i = (tickedPlant^[inputs.length]) (s.plants.get i) := by
  induction inputs with
  | nil => intro s _; rfl
  | cons inp rest ih =>
    intro s h
    have h1 := UpdateGame_plant_active coll inp s i h
    have h2 : ((UpdateGame coll inp s).plants.get i).active = true := by
      rw [h1, (tickedPlant_fields _).2]; exact h
    rw [runFrames_cons, ih _ h2, h1, List.length_cons, Function.iterate_succ_apply]

theorem tickedPlant_iterate (P : Vector2) (k : Nat) :
    (tickedPlant^[k]) ⟨P, true, 60⟩ = ⟨P, true, 60 - ((k % 60 : Nat) : Int)⟩ := by
  induction k with
  | zero => rfl
  | succ k ih =>
    rw [Function.iterate_succ_apply', ih]
    unfold tickedPlant
    simp only [if_true]
    by_cases h : (60 : Int) - ((k % 60 : Nat) : Int) - 1 ≤ 0
    · simp only [h, if_true]
      congr 1
      omega
    · simp only [h, if_false]
      congr 1
      omega

theorem ShootProjectile_full (lane : Fin LANE_COUNT) (s : Game)
    (hall : ∀ j, (s.projectiles.get j).active = true) : ShootProjectile lane s = s := by
  unfold ShootProjectile
  exact scan_none (fun i => !(s.projectiles.get i).active) _ s (shootScan lane s) rfl
    (shootScan_cons lane s) _ (fun k _ => by simp [hall k])

/-- From the frame in which a turret is placed into slot `i` on: the slot after the frame and
`m` more, and whether the turret fires in the frame after those. -/
theorem placed_turret_schedule (coll : Collision) (inp : FrameInput) (s : Game)
    (i : Fin LANE_COUNT) (P : Vector2) (more : List FrameInput) (next : FrameInput)
    (hclick : inp.click = some P) (hcount : s.plantCount < 7)
    (hfree : (s.plants.get i).active = false)
    (hlow : ∀ k, k < i → (s.plants.get k).active = true) :
    fires (turretLoopEntry inp s) i = false ∧
    (runFrames coll s (inp :: more)).plants.get i =
      ⟨P, true, 60 - (((more.length + 1) % 60 : Nat) : Int)⟩ ∧
    (fires (turretLoopEntry next (runFrames coll s (inp :: more))) i = true ↔
      (more.length + 2) % 60 = 0) := by
  have hp := turretLoopEntry_placed inp s i P hclick hcount hfree hlow
  have h1 : (UpdateGame coll inp s).plants.get i = tickedPlant ⟨P, true, 60⟩ := by
    rw [UpdateGame_plants, Vector.get_map, hp]
  have hact : ((UpdateGame coll inp s).plants.get i).active = true := by
    rw [h1, (tickedPlant_fields _).2]
  have hrun : (runFrames coll s (inp :: more)).plants.get i =
      ⟨P, true, 60 - (((more.length + 1) % 60 : Nat) : Int)⟩ := by
    rw [runFrames_cons, runFrames_plant coll i more _ hact, h1,
      ← Function.iterate_succ_apply, tickedPlant_iterate]
  have hact2 : ((runFrames coll s (inp :: more)).plants.get i).active = true := by rw [hrun]
  refine ⟨?_, hrun, ?_⟩
  · unfold fires
    rw [hp]
    simp
  · unfold fires
    rw [turretLoopEntry_active next _ i hact2, hrun]
    simp only [Bool.true_and, decide_eq_true_eq]
    omega

/-! ## Counting turrets -/

/-- A count over distinct slots goes up by one when the test turns true at one slot. -/
theorem countP_flip {n : Nat} (p q : Fin n → Bool) (j : Fin n) (hp : p j = false)
    (hq : q j = true) (hsame : ∀ k, k ≠ j → q k = p k) :
    ∀ l : List (Fin n), l.Nodup → j ∈ l → l.countP q = l.countP p + 1 := by
  intro l
  induction l with
  | nil => intro _ h; exact absurd h (List.not_mem_nil j)
  | cons a rest ih =>
    intro hnd hmem
    have ha : a ∉ rest := (List.nodup_cons.mp hnd).1
    by_cases haj : a = j
    · subst haj
      have hrest : rest.countP q = rest.countP p := by
        apply List.countP_congr
        intro k hk
        rw [hsame k (fun e => ha (e ▸ hk))]
      simp [List.countP_cons, hp, hq, hrest]
    · have hjr : j ∈ rest := by
        rcases List.mem_cons.mp hmem with e | e
        · exact absurd e.symm haj
        · exact e
      simp [List.countP_cons, hsame a haj, ih (List.nodup_cons.mp hnd).2 hjr]
      omega

theorem sameTurrets_refl (s : Game) : SameTurrets s s := ⟨rfl, fun _ => rfl⟩

theorem sameTurrets_trans (a b c : Game) (h1 : SameTurrets a b) (h2 : SameTurrets b c) :
    SameTurrets a c :=
  ⟨h2.1.trans h1.1, fun k => (h2.2 k).trans (h1.2 k)⟩

theorem sameTurrets_of_eq (s t : Game) (hp : t.plants = s.plants)
    (hc : t.plantCount = s.plantCount) : SameTurrets s t :=
  ⟨hc, fun k => by rw [hp]⟩

theorem sameTurrets_counted (s t : Game) (h : SameTurrets s t) (hs : TurretsCounted s) :
    TurretsCounted t := by
  unfold TurretsCounted activePlants at hs ⊢
  rw [h.1, hs]
  congr 1
  apply List.countP_congr
  intro k _
  rw [h.2 k]

theorem updatePlants_sameTurrets_aux (s : Game) :
    (updatePlants s).plantCount = s.plantCount := by
  rw [updatePlants_eq]
  simp only []
  unfold shotsFrom
  apply foldl_inv (fun t i => if fires s i = true then ShootProjectile i t else t)
    (fun t => t.plantCount = s.plantCount) _ _ s rfl
  intro t i ht
  simp only []
  split
  · rw [(ShootProjectile_plants i t).2]; exact ht
  · exact ht

theorem updatePlants_sameTurrets (s : Game) : SameTurrets s (updatePlants s) := by
  refine ⟨updatePlants_sameTurrets_aux s, fun k => ?_⟩
  rw [updatePlants_eq]
  simp only [Vector.get_map]
  exact (tickedPlant_fields _).2

theorem PlacePlant_counted (P : Vector2) (s : Game) (h : TurretsCounted s) :
    TurretsCounted (PlacePlant P s) := by
  rcases PlacePlant_cases P s with e | ⟨j, hj, e⟩
  · rw [e]; exact h
  · rw [e]
    unfold TurretsCounted activePlants at h ⊢
    have hflip := countP_flip (fun i => (s.plants.get i).active)
      (fun i => ((s.plants.set j { position := P, active := true, shootTimer := 60 }).get i).active)
      j hj (by simp [Vector.get_set_same])
      (fun k hk => by simp [Vector.get_set_of_ne (Ne.symm hk)])
      (List.finRange LANE_COUNT) (List.nodup_finRange _) (List.mem_finRange j)
    simp only []
    rw [hflip, h]
    push_cast
    ring

theorem UpdateGame_counted (coll : Collision) (inp : FrameInput) (s : Game)
    (h : TurretsCounted s) : TurretsCounted (UpdateGame coll inp s) := by
  obtain ⟨b1, b2⟩ := beforeClick_turrets inp s
  have h1 : SameTurrets s (moveRobots (robotLoopEntry inp s)) := sameTurrets_of_eq _ _ b1 b2
  have k1 := sameTurrets_counted _ _ h1 h
  have k2 : TurretsCounted (clickStep inp (moveRobots (robotLoopEntry inp s))) := by
    unfold clickStep
    split
    · exact PlacePlant_counted _ _ k1
    · exact k1
  have k3 := sameTurrets_counted _ _ (updatePlants_sameTurrets _) k2
  have h4 : SameTurrets (updatePlants (clickStep inp (moveRobots (robotLoopEntry inp s))))
      (UpdateProjectiles (updatePlants (clickStep inp (moveRobots (robotLoopEntry inp s))))) := by
    apply sameTurrets_of_eq <;> rw [UpdateProjectiles_eq]
  have k4 := sameTurrets_counted _ _ h4 k3
  obtain ⟨f1, -, -, -, -, -, -, -, -, f10, -⟩ := CheckCollisions_onlyCombat coll
    (UpdateProjectiles (updatePlants (clickStep inp (moveRobots (robotLoopEntry inp s)))))
  exact sameTurrets_counted _ _ (sameTurrets_of_eq _ _ f1 f10) k4

theorem runFrames_counted (coll : Collision) (start : Game) (inputs : List FrameInput) :
    TurretsCounted (runFrames coll (InitGame start) inputs) := by
  unfold runFrames
  apply foldl_inv (fun g inp => UpdateGame coll inp g) TurretsCounted
    (fun g inp hg => UpdateGame_counted coll inp g hg)
  unfold TurretsCounted activePlants
  rw [(InitGame_inactive start).2.2.2]
  have : (List.finRange LANE_COUNT).countP (fun i => ((InitGame start).plants.get i).active) = 0 := by
    rw [List.countP_eq_zero]
    intro i _
    simp [(InitGame_inactive start).1 i]
  rw [this]
  rfl

theorem activePlants_le (s : Game) : activePlants s ≤ 5 :=
  le_trans (List.countP_le_length _) (by rw [List.length_finRange])

theorem activePlants_full (s : Game) (h : activePlants s = 5) :
    ∀ i, (s.plants.get i).active = true := by
  intro i
  have hlen : activePlants s = (List.finRange LANE_COUNT).length := by
    rw [h, List.length_finRange]
  exact (List.countP_eq_length.mp hlen) i (List.mem_finRange i)

/-! ## The balance of the collision pass -/

/-- A sum over distinct slots goes up by one when one summand does. -/
theorem sum_bump {n : Nat} (f g : Fin n → Int) (j : Fin n) (hj : g j = f j + 1)
    (hsame : ∀ k, k ≠ j → g k = f k) :
    ∀ l : List (Fin n), l.Nodup → j ∈ l → (l.map g).sum = (l.map f).sum + 1 := by
  intro l
  induction l with
  | nil => intro _ h; exact absurd h (List.not_mem_nil j)
  | cons a rest ih =>
    intro hnd hmem
    have ha : a ∉ rest := (List.nodup_cons.mp hnd).1
    by_cases haj : a = j
    · subst haj
      have hrest : rest.map g = rest.map f := by
        apply List.map_congr_left
        intro k hk
        exact hsame k (fun e => ha (e ▸ hk))
      simp only [List.map_cons, List.sum_cons, hj, hrest]
      ring
    · have hjr : j ∈ rest := by
        rcases List.mem_cons.mp hmem with e | e
        · exact absurd e.symm haj
        · exact e
      simp only [List.map_cons, List.sum_cons, hsame a haj, ih (List.nodup_cons.mp hnd).2 hjr]
      ring

theorem conserved_refl (s : Game) : Conserved s s := by
  refine ⟨?_, ?_, fun _ h => h, fun _ h => h⟩
  · have h1 : projectilesLost s s = 0 := by
      unfold projectilesLost
      rw [List.countP_eq_zero]
      intro i _
      cases (s.projectiles.get i).active <;> simp
    have h2 : healthLost s s = 0 := by
      unfold healthLost
      simp
    rw [h1, h2]; rfl
  · have h1 : robotsLost s s = 0 := by
      unfold robotsLost
      rw [List.countP_eq_zero]
      intro i _
      cases (s.robots.get i).active <;> simp
    rw [h1]; simp

theorem conserved_hit (coll : Collision) (s t : Game) (i : Fin MAX_PROJECTILES)
    (j : Fin MAX_ROBOTS) (h : Conserved s t) (hi : (t.projectiles.get i).active = true)
    (hj : hits coll t i j = true) : Conserved s (hitResult t i j) := by
  obtain ⟨h1, h2, h3, h4⟩ := h
  have htj : (t.robots.get j).active = true := by
    simp only [hits, Bool.and_eq_true] at hj
    exact hj.1
  have hsi : (s.projectiles.get i).active = true := by
    by_contra hc
    rw [h3 i (by simpa using hc)] at hi
    exact absurd hi (by decide)
  have hsj : (s.robots.get j).active = true := by
    by_contra hc
    rw [h4 j (by simpa using hc)] at htj
    exact absurd htj (by decide)
  have hproj : projectilesLost s (hitResult t i j) = projectilesLost s t + 1 := by
    unfold projectilesLost
    apply countP_flip _ _ i (by simp [hsi, hi]) (by simp [hitResult, hsi, Vector.get_set_same])
      (fun k hk => by simp [hitResult, Vector.get_set_of_ne (Ne.symm hk)])
      _ (List.nodup_finRange _) (List.mem_finRange i)
  have hhealth : healthLost s (hitResult t i j) = healthLost s t + 1 := by
    unfold healthLost
    apply sum_bump _ _ j _ _ _ (List.nodup_finRange _) (List.mem_finRange j)
    · simp only [hitResult, Vector.get_set_same, damaged]
      split <;> simp only [] <;> ring
    · intro k hk
      simp only [hitResult, Vector.get_set_of_ne (Ne.symm hk)]
  refine ⟨?_, ?_, fun k hk => ?_, fun k hk => ?_⟩
  · rw [hproj, hhealth, ← h1]; push_cast; ring
  · by_cases hz : (t.robots.get j).health - 1 ≤ 0
    · have hrob : robotsLost s (hitResult t i j) = robotsLost s t + 1 := by
        unfold robotsLost
        apply countP_flip _ _ j (by simp [hsj, htj])
          (by simp [hitResult, hsj, Vector.get_set_same, damaged, hz])
          (fun k hk => by simp [hitResult, Vector.get_set_of_ne (Ne.symm hk)])
          _ (List.nodup_finRange _) (List.mem_finRange j)
      rw [hrob]
      simp only [hitResult, hz, if_true]
      push_cast
      linarith
    · have hrob : robotsLost s (hitResult t i j) = robotsLost s t := by
        unfold robotsLost
        apply List.countP_congr
        intro k _
        by_cases hk : j = k
        · subst hk; simp [hitResult, Vector.get_set_same, damaged, hz]
        · simp [hitResult, Vector.get_set_of_ne hk]
      rw [hrob]
      simp only [hitResult, hz, if_false]
      exact h2
  · by_cases hki : i = k
    · subst hki; simp [hitResult, Vector.get_set_same]
    · simp only [hitResult, Vector.get_set_of_ne hki]
      exact h3 k hk
  · have hkj : j ≠ k := by
      intro e
      rw [e, hk] at hsj
      exact absurd hsj (by decide)
    simp only [hitResult, Vector.get_set_of_ne hkj]
    exact h4 k hk

theorem conserved_step (coll : Collision) (s t : Game) (i : Fin MAX_PROJECTILES)
    (h : Conserved s t) : Conserved s (collideStep coll t i) := by
  unfold collideStep
  split
  · rename_i hi
    rcases scan_cases (hits coll t i) (hitResult t i) t (collideScan coll i t) rfl
      (collideScan_cons coll i t) (List.finRange MAX_ROBOTS) with e | ⟨j, hj, e⟩
    · rw [e]; exact h
    · rw [e]; exact conserved_hit coll s t i j h hi hj
  · exact h

theorem CheckCollisions_conserved (coll : Collision) (s : Game) :
    Conserved s (CheckCollisions coll s) :=
  foldl_inv (collideStep coll) (Conserved s) (fun t i ht => conserved_step coll s t i ht)
    _ s (conserved_refl s)

/-- A loop that stops at its first hit runs its body when some slot of the list hits. -/
theorem scan_some {n : Nat} {α : Type} (c : Fin n → Bool) (b : Fin n → α)
    (f : List (Fin n) → α)
    (hcons : ∀ i rest, f (i :: rest) = if c i then b i else f rest) :
    ∀ slots : List (Fin n), (∃ k ∈ slots, c k = true) → ∃ j, c j = true ∧ f slots = b j := by
  intro slots
  induction slots with
  | nil => intro ⟨k, hk, _⟩; exact absurd hk (List.not_mem_nil k)
  | cons i rest ih =>
    intro ⟨k, hk, hc⟩
    rw [hcons]
    by_cases h : c i = true
    · exact ⟨i, h, by simp [h]⟩
    · have hkr : k ∈ rest := by
        rcases List.mem_cons.mp hk with e | e
        · rw [e] at hc; exact absurd hc h
        · exact e
      obtain ⟨j, hj, e⟩ := ih ⟨k, hkr, hc⟩
      exact ⟨j, hj, by simp [h, e]⟩

theorem PlacePlant_adds (P : Vector2) (s : Game) (hcount : s.plantCount < 7)
    (hfree : ∃ k, (s.plants.get k).active = false) :
    (PlacePlant P s).plantCount = s.plantCount + 1 := by
  have hlt : ¬ s.plantCount ≥ 7 := not_le.mpr hcount
  obtain ⟨k, hk⟩ := hfree
  obtain ⟨j, -, e⟩ := scan_some (fun i => !(s.plants.get i).active) _ (placeScan P s)
    (placeScan_cons P s) (List.finRange LANE_COUNT) ⟨k, List.mem_finRange k, by simp [hk]⟩
  simp only [PlacePlant, hlt, if_false]
  rw [e]

/-- A frame with a click adds a turret while fewer than 5 are placed. -/
theorem UpdateGame_click_count (coll : Collision) (inp : FrameInput) (s : Game) (P : Vector2)
    (hclick : inp.click = some P) (hc : TurretsCounted s) (h5 : s.plantCount < 5) :
    (UpdateGame coll inp s).plantCount = s.plantCount + 1 := by
  obtain ⟨b1, b2⟩ := beforeClick_turrets inp s
  have hfree : ∃ k, ((moveRobots (robotLoopEntry inp s)).plants.get k).active = false := by
    by_contra hno
    have hall : ∀ k, (s.plants.get k).active = true := by
      intro k
      by_contra hk
      exact hno ⟨k, by rw [b1]; simpa using hk⟩
    have hfull : activePlants s = 5 := by
      unfold activePlants
      have := List.countP_eq_length.mpr (fun k (_ : k ∈ List.finRange LANE_COUNT) => hall k)
      rw [this, List.length_finRange]
    unfold TurretsCounted at hc
    rw [hc, hfull] at h5
    exact absurd h5 (by decide)
  have hU : UpdateGame coll inp s =
      CheckCollisions coll (UpdateProjectiles (updatePlants (turretLoopEntry inp s))) := rfl
  have hentry : (turretLoopEntry inp s).plantCount = s.plantCount + 1 := by
    unfold turretLoopEntry clickStep
    rw [hclick]
    simp only []
    rw [PlacePlant_adds P _ (by rw [b2]; omega) hfree, b2]
  obtain ⟨-, -, -, -, -, -, -, -, -, f10, -⟩ := CheckCollisions_onlyCombat coll
    (UpdateProjectiles (updatePlants (turretLoopEntry inp s)))
  rw [hU, f10, UpdateProjectiles_eq, (updatePlants_sameTurrets _).1, hentry]

/-- Clicking in each of the first `n <= 5` frames of a match places `n` turrets. -/
theorem runFrames_clicks (coll : Collision) (start : Game) (n : Nat) (h : n ≤ 5) :
    (runFrames coll (InitGame start) (List.replicate n clickFrame)).plantCount = (n : Int) := by
  induction n with
  | zero => exact (InitGame_inactive start).2.2.2
  | succ n ih =>
    have hn := ih (by omega)
    have hsplit : List.replicate (n + 1) clickFrame = List.replicate n clickFrame ++ [clickFrame] :=
      List.replicate_succ' n clickFrame
    rw [hsplit, runFrames_append, runFrames_cons]
    have hnil : ∀ g : Game, runFrames coll g [] = g := fun _ => rfl
    rw [hnil, UpdateGame_click_count coll clickFrame _ ⟨280, 250⟩ rfl
      (runFrames_counted coll start _) (by rw [hn]; exact_mod_cast (by omega : n < 5)), hn]
    push_cast
    ring

/-! ## One robot through the collision pass -/

theorem collideStep_afterHits (coll : Collision) (r : Robot) (t : Game)
    (i : Fin MAX_PROJECTILES) (k : Fin MAX_ROBOTS) (h : AfterHits r (t.robots.get k)) :
    AfterHits r ((collideStep coll t i).robots.get k) := by
  unfold collideStep
  split
  · rcases scan_cases (hits coll t i) (hitResult t i) t (collideScan coll i t) rfl
      (collideScan_cons coll i t) (List.finRange MAX_ROBOTS) with e | ⟨j, hj, e⟩
    · rw [e]; exact h
    · rw [e]
      by_cases hjk : j = k
      · subst hjk
        have hact : (t.robots.get j).active = true := by
          simp only [hits, Bool.and_eq_true] at hj
          exact hj.1
        obtain ⟨h1, h2, h3, h4⟩ := h
        simp only [hitResult, Vector.get_set_same]
        unfold damaged
        by_cases hz : (t.robots.get j).health - 1 ≤ 0
        · simp only [hz, if_true]
          unfold AfterHits
          dsimp only
          exact ⟨h1, by omega, fun hf => absurd hf (by decide), fun _ _ => ⟨hz, by omega⟩⟩
        · simp only [hz, if_false]
          unfold AfterHits
          dsimp only
          refine ⟨h1, by omega, fun _ => h3 hact, fun _ hf => ?_⟩
          rw [hact] at hf
          exact absurd hf (by decide)
      · simp only [hitResult, Vector.get_set_of_ne hjk]
        exact h
  · exact h

theorem CheckCollisions_afterHits (coll : Collision) (s : Game) (k : Fin MAX_ROBOTS) :
    AfterHits (s.robots.get k) ((CheckCollisions coll s).robots.get k) := by
  unfold CheckCollisions
  apply foldl_inv (collideStep coll) (fun t => AfterHits (s.robots.get k) (t.robots.get k))
    (fun t i ht => collideStep_afterHits coll (s.robots.get k) t i k ht)
  exact ⟨rfl, le_rfl, fun h => h, fun h hf => by rw [h] at hf; exact absurd hf (by decide)⟩

/-- The robots handed to the collision pass are those left by the robot loop. -/
theorem beforeCollisions_robots (inp : FrameInput) (s : Game) :
    (UpdateProjectiles (updatePlants (clickStep inp (moveRobots (robotLoopEntry inp s))))).robots =
      (moveRobots (robotLoopEntry inp s)).robots := by
  rw [(UpdateProjectiles_onlyTurrets _).1, (updatePlants_onlyTurrets _).1,
    (clickStep_onlyTurrets inp _).1]

/-- A robot that the robot loop moved without breach: where it is at the end of the frame. -/
theorem UpdateGame_survivor (coll : Collision) (inp : FrameInput) (s : Game)
    (i : Fin MAX_ROBOTS) (ha : ((robotLoopEntry inp s).robots.get i).active = true)
    (hb : breaches (robotLoopEntry inp s) i = false) :
    ((UpdateGame coll inp s).robots.get i).position =
      ⟨((robotLoopEntry inp s).robots.get i).position.x - (robotLoopEntry inp s).robotSpeed,
        ((robotLoopEntry inp s).robots.get i).position.y⟩ ∧
    (((UpdateGame coll inp s).robots.get i).active = false →
      ((UpdateGame coll inp s).robots.get i).health ≤ 0 ∧
      ((UpdateGame coll inp s).robots.get i).health <
        ((robotLoopEntry inp s).robots.get i).health) := by
  have hU : UpdateGame coll inp s = CheckCollisions coll
    (UpdateProjectiles (updatePlants (clickStep inp (moveRobots (robotLoopEntry inp s))))) := rfl
  have hx : ¬ ((robotLoopEntry inp s).robots.get i).position.x -
      (robotLoopEntry inp s).robotSpeed < 0 := by
    simpa [breaches, ha] using hb
  have hm : (moveRobots (robotLoopEntry inp s)).robots.get i =
      { (robotLoopEntry inp s).robots.get i with
        position := ⟨((robotLoopEntry inp s).robots.get i).position.x -
          (robotLoopEntry inp s).robotSpeed, ((robotLoopEntry inp s).robots.get i).position.y⟩ } := by
    rw [movedRobot_get]
    simp [movedRobot, ha, hx]
  obtain ⟨h1, -, -, h4⟩ := CheckCollisions_afterHits coll
    (UpdateProjectiles (updatePlants (clickStep inp (moveRobots (robotLoopEntry inp s))))) i
  rw [beforeCollisions_robots, hm] at h1 h4
  rw [hU]
  exact ⟨h1, fun hf => h4 ha hf⟩

theorem UpdateGame_noCollision_robots (inp : FrameInput) (s : Game) :
    (UpdateGame noCollision inp s).robots = (moveRobots (robotLoopEntry inp s)).robots := by
  have hU : UpdateGame noCollision inp s = CheckCollisions noCollision
    (UpdateProjectiles (updatePlants (clickStep inp (moveRobots (robotLoopEntry inp s))))) := rfl
  rw [hU, CheckCollisions_noCollision, beforeCollisions_robots]

theorem updatePlants_idle (s : Game) (h : ∀ k, (s.plants.get k).active = false) :
    updatePlants s = s := by
  unfold updatePlants
  apply foldl_inv plantStep (fun t => t = s) _ _ s rfl
  intro t i ht
  rw [ht]
  simp [plantStep, h i]

theorem clickStep_none (inp : FrameInput) (s : Game) (h : inp.click = none) :
    clickStep inp s = s := by
  simp [clickStep, h]

/-- A pass of the collision loop over any slots leaves an inactive robot as it is. -/
theorem collideSlots_inactive (coll : Collision) (t : Game) (slots : List (Fin MAX_PROJECTILES))
    (j : Fin MAX_ROBOTS) (h : (t.robots.get j).active = false) :
    (slots.foldl (collideStep coll) t).robots.get j = t.robots.get j :=
  (foldl_rel (collideStep coll) OnlyCombatChanges onlyCombat_refl onlyCombat_trans
    (collideStep_onlyCombat coll) slots t).2.2.2.2.2.2.2.2.2.2 j h

/-- In `duelState`, a frame of one second without spawn or click: robot 0 is moved to x = 399
by the robot loop, without breach, and the collision pass then destroys it. -/
theorem duel_frame :
    ((robotLoopEntry quietSecond duelState).robots.get 0).active = true ∧
    breaches (robotLoopEntry quietSecond duelState) 0 = false ∧
    (moveRobots (robotLoopEntry quietSecond duelState)).robots.get 0 = ⟨⟨399, 50⟩, true, 1, 0⟩ ∧
    ((UpdateGame allCollide quietSecond duelState).robots.get 0).active = false := by
  have he := robotLoopEntry_quiet quietSecond duelState (by decide)
  obtain ⟨c1, c2, c3, -, -, -, -, c8, -⟩ := clockStep_fields quietSecond.frameTime duelState
  have hr0 : duelState.robots.get 0 = ⟨⟨400, 50⟩, true, 1, 0⟩ := rfl
  have hv : duelState.robotSpeed = 1 := rfl
  have hp0 : duelState.projectiles.get 0 = ⟨⟨400, 50⟩, true, 0⟩ := rfl
  have hpl : ∀ k, (duelState.plants.get k).active = false := by decide
  have hlt : ¬ ((400 : ℚ) - 1 < 0) := by norm_num
  have hgt : ¬ ((400 : ℚ) + 5 > SCREEN_WIDTH) := by norm_num
  rw [he]
  generalize clockStep quietSecond.frameTime duelState = e at c1 c2 c3 c8 he
  have hm := moveRobots_eq e
  have hm0 : (moveRobots e).robots.get 0 = ⟨⟨399, 50⟩, true, 1, 0⟩ := by
    rw [movedRobot_get, c2, c8, hr0, hv]
    simp only [movedRobot, if_true, hlt, if_false]
    norm_num
  have hmpl : (moveRobots e).plants = duelState.plants := by rw [hm]; exact c1
  have hmpr : (moveRobots e).projectiles = duelState.projectiles := by rw [hm]; exact c3
  have hU : UpdateGame allCollide quietSecond duelState =
      CheckCollisions allCollide (UpdateProjectiles (updatePlants (clickStep quietSecond
        (moveRobots (robotLoopEntry quietSecond duelState))))) := rfl
  rw [hU, he, clickStep_none quietSecond _ rfl,
    updatePlants_idle _ (fun k => by rw [hmpl]; exact hpl k)]
  generalize moveRobots e = m at hm0 hmpr
  have hX := UpdateProjectiles_eq m
  have hXr : (UpdateProjectiles m).robots.get 0 = ⟨⟨399, 50⟩, true, 1, 0⟩ := by
    rw [hX]; exact hm0
  have hXp : ((UpdateProjectiles m).projectiles.get 0).active = true := by
    rw [hX]
    simp only [Vector.get_map, hmpr, hp0, advanced, if_true, hgt, if_false]
  generalize UpdateProjectiles m = X at hXr hXp
  have hhit : hits allCollide X 0 0 = true := by
    simp [hits, allCollide, hXr]
  have hstep : collideStep allCollide X 0 = hitResult X 0 0 := by
    simp only [collideStep, hXp, if_true]
    exact scan_first (hits allCollide X 0) (hitResult X 0) (collideScan allCollide 0 X)
      (collideScan_cons allCollide 0 X) 0 hhit (fun k hk => absurd hk (by simp))
      _ (List.pairwise_lt_finRange _) (List.mem_finRange 0)
  have hdead : ((hitResult X 0 0).robots.get 0).active = false := by
    simp only [hitResult, Vector.get_set_same, hXr, damaged]
    decide
  have hsplit : List.finRange MAX_PROJECTILES = 0 :: (List.finRange 49).map Fin.succ :=
    List.finRange_succ 49
  refine ⟨by rw [c2, hr0], ?_, hm0, ?_⟩
  · simp [breaches, c2, c8, hr0, hv, hlt]
  · unfold CheckCollisions
    rw [hsplit, List.foldl_cons, hstep, collideSlots_inactive allCollide _ _ 0 hdead]
    exact hdead

/-! # The claims -/

/-! ## Restart (C1, C2) -/

/-- C1 (defect of the code): the restart of `main` (lines 105-108) does not touch base health.
`InitGame` resets the score, the clock, the turret count and the slots but never assigns
`baseHealth`, so a match restarts with the base health it ended with.  For instance the Easy
match `lastSecondBreach` is lost in its next frame with base health 0, and the restart from
that game-over state has base health 0, not 5. -/
theorem restart_leaves_baseHealth :
    (∀ s : Game, (restart s).baseHealth = s.baseHealth) ∧
    (UpdateGame noCollision quietSecond lastSecondBreach).gameOver = true ∧
    (UpdateGame noCollision quietSecond lastSecondBreach).endMessage = "YOU LOST!" ∧
    (restart (UpdateGame noCollision quietSecond lastSecondBreach)).baseHealth = 0 ∧
    (restart (UpdateGame noCollision quietSecond lastSecondBreach)).baseHealth ≠ 5 := by
  have hkeep : ∀ s : Game, (restart s).baseHealth = s.baseHealth := by
    intro s
    simp [restart, InitGame]
  obtain ⟨h1, h2, h3, -⟩ := UpdateGame_summary noCollision quietSecond lastSecondBreach
  have hbh : lastSecondBreach.baseHealth = 1 := rfl
  rw [lastSecondBreach_breaches.2, hbh] at h1 h2 h3
  have hzero : (restart (UpdateGame noCollision quietSecond lastSecondBreach)).baseHealth = 0 := by
    rw [hkeep, h1]; norm_num
  refine ⟨hkeep, ?_, ?_, hzero, ?_⟩
  · rw [h2]; simp
  · rw [h3]; simp
  · rw [hzero]; norm_num

/-- C2: restart from any state sets score to 0, the remaining time to the selected duration
`gameTime`, deactivates every turret, robot and projectile slot, sets the turret count to 0 and
`gameOver` to false; `gameRunning`, the duration and the robot speed keep their values, so a
running game re-enters play directly. -/
theorem restart_resets (s : Game) :
    (restart s).score = 0 ∧
    (restart s).remainingTime = (s.gameTime : ℚ) ∧
    (∀ i, ((restart s).plants.get i).active = false) ∧
    (∀ i, ((restart s).robots.get i).active = false) ∧
    (∀ i, ((restart s).projectiles.get i).active = false) ∧
    (restart s).plantCount = 0 ∧
    (restart s).gameOver = false ∧
    (restart s).gameRunning = s.gameRunning ∧
    (restart s).gameTime = s.gameTime ∧
    (restart s).robotSpeed = s.robotSpeed := by
  simp [restart, InitGame, Vector.get_map, Vector.get_ofFn]

/-! ## Robots reaching the base (C3) -/

/-- C3 (as stated, refuted): in `duelState`, in a frame of one second without spawn or click and
with a collision test that reports every contact, robot 0 (health 1) is active, at x = 399
after moving left by the robot speed (so at x >= 0, no breach), and still active when the robot
loop ends; yet it is inactive at the end of the frame, destroyed by projectile 0 in the
collision pass of lines 327-333. -/
theorem survivor_destroyed_in_frame :
    ((robotLoopEntry quietSecond duelState).robots.get 0).active = true ∧
    breaches (robotLoopEntry quietSecond duelState) 0 = false ∧
    (0 : ℚ) ≤ ((moveRobots (robotLoopEntry quietSecond duelState)).robots.get 0).position.x ∧
    ((moveRobots (robotLoopEntry quietSecond duelState)).robots.get 0).active = true ∧
    ((UpdateGame allCollide quietSecond duelState).robots.get 0).active = false := by
  obtain ⟨h1, h2, h3, h4⟩ := duel_frame
  refine ⟨h1, h2, ?_, ?_, h4⟩
  · rw [h3]; norm_num
  · rw [h3]

/-- C3 (amended): in the robot loop, run from any state `e`, every active robot whose `x` minus
the robot speed is below 0 is moved and deactivated, every other active robot is moved and is
still active when the loop ends, inactive slots are untouched, and base health drops by the
number of robots that breached.
In a frame of `UpdateGame` the loop starts from `robotLoopEntry inp s`: the robots that breach
are inactive at the end of the frame, base health at the end of the frame is the base health
before it minus the number of breaches, and if at least one robot breached and base health is
then at most 0, the frame ends with `gameOver` true and the message "YOU LOST!".  An active
robot that does not breach costs nothing and is at its moved position at the end of the frame;
it is inactive there only if the collision pass of the frame destroyed it (a hit that left its
health at most 0), and with a collision test that reports no hit the robots at the end of the
frame are those left by the robot loop. -/
theorem UpdateGame_breach (coll : Collision) (inp : FrameInput) (s : Game) :
    (∀ e : Game,
      (∀ i, breaches e i = true →
        (moveRobots e).robots.get i =
          { e.robots.get i with
            position := ⟨(e.robots.get i).position.x - e.robotSpeed, (e.robots.get i).position.y⟩
            active := false }) ∧
      (∀ i, (e.robots.get i).active = true → breaches e i = false →
        (moveRobots e).robots.get i =
          { e.robots.get i with
            position := ⟨(e.robots.get i).position.x - e.robotSpeed, (e.robots.get i).position.y⟩
            active := true }) ∧
      (∀ i, (e.robots.get i).active = false → (moveRobots e).robots.get i = e.robots.get i) ∧
      (moveRobots e).baseHealth = e.baseHealth - (breachCount e : Int)) ∧
    UpdateGame coll inp s =
      CheckCollisions coll (UpdateProjectiles (updatePlants (clickStep inp
        (moveRobots (robotLoopEntry inp s))))) ∧
    (∀ i, breaches (robotLoopEntry inp s) i = true →
      ((UpdateGame coll inp s).robots.get i).active = false) ∧
    (UpdateGame coll inp s).baseHealth =
      s.baseHealth - (breachCount (robotLoopEntry inp s) : Int) ∧
    (0 < breachCount (robotLoopEntry inp s) → (UpdateGame coll inp s).baseHealth ≤ 0 →
      (UpdateGame coll inp s).gameOver = true ∧
      (UpdateGame coll inp s).endMessage = "YOU LOST!") ∧
    (∀ i, ((robotLoopEntry inp s).robots.get i).active = true →
      breaches (robotLoopEntry inp s) i = false →
      ((UpdateGame coll inp s).robots.get i).position =
        ⟨((robotLoopEntry inp s).robots.get i).position.x - (robotLoopEntry inp s).robotSpeed,
          ((robotLoopEntry inp s).robots.get i).position.y⟩ ∧
      (((UpdateGame coll inp s).robots.get i).active = false →
        ((UpdateGame coll inp s).robots.get i).health ≤ 0 ∧
        ((UpdateGame coll inp s).robots.get i).health <
          ((robotLoopEntry inp s).robots.get i).health)) ∧
    (UpdateGame noCollision inp s).robots = (moveRobots (robotLoopEntry inp s)).robots := by
  obtain ⟨h1, h2, h3, -, -, -, -, -, h9⟩ := UpdateGame_summary coll inp s
  refine ⟨fun e => ⟨fun i hi => ?_, fun i ha hi => ?_, fun i ha => ?_, ?_⟩, rfl, fun i hi => ?_,
    h1, fun hpos hbh => ?_, fun i ha hb => UpdateGame_survivor coll inp s i ha hb,
    UpdateGame_noCollision_robots inp s⟩
  · rw [movedRobot_get]
    simp only [breaches, Bool.and_eq_true, decide_eq_true_eq] at hi
    simp [movedRobot, hi.1, hi.2]
  · rw [movedRobot_get]
    have hx : ¬ (e.robots.get i).position.x - e.robotSpeed < 0 := by
      simpa [breaches, ha] using hi
    simp [movedRobot, ha, hx]
  · rw [movedRobot_get]
    simp [movedRobot, ha]
  · rw [moveRobots_eq]
  · have hin : ((moveRobots (robotLoopEntry inp s)).robots.get i).active = false := by
      rw [movedRobot_get]
      simp only [breaches, Bool.and_eq_true, decide_eq_true_eq] at hi
      simp [movedRobot, hi.1, hi.2]
    rw [h9 i hin]
    exact hin
  · rw [h1] at hbh
    rw [h2, h3]
    simp [hpos, hbh]

/-- C3 (amended) in the last second of an Easy match with base health 1 and a robot at `x = 0`:
the robot breaches, is inactive at the end of the frame and base health is lowered; and in
`duelState`, where robot 0 does not breach and is inactive at the end of the frame, its health
is then at most 0. -/
theorem UpdateGame_breach_witness :
    breaches (robotLoopEntry quietSecond lastSecondBreach) 0 = true ∧
    ((UpdateGame noCollision quietSecond lastSecondBreach).robots.get 0).active = false ∧
    (UpdateGame noCollision quietSecond lastSecondBreach).baseHealth =
      lastSecondBreach.baseHealth -
        (breachCount (robotLoopEntry quietSecond lastSecondBreach) : Int) ∧
    ((robotLoopEntry quietSecond duelState).robots.get 0).active = true ∧
    breaches (robotLoopEntry quietSecond duelState) 0 = false ∧
    ((UpdateGame allCollide quietSecond duelState).robots.get 0).health ≤ 0 := by
  have hb := lastSecondBreach_breaches.1
  have h := UpdateGame_breach noCollision quietSecond lastSecondBreach
  obtain ⟨d1, d2, -, d4⟩ := duel_frame
  exact ⟨hb, h.2.2.1 0 hb, h.2.2.2.1, d1, d2,
    (((UpdateGame_breach allCollide quietSecond duelState).2.2.2.2.2.1 0 d1 d2).2 d4).1⟩

/-! ## Collisions (C4) -/

/-- C4: `CheckCollisions` runs the projectile slots in ascending order, and for each projectile
`i` in the state reached so far: an inactive projectile, or one that touches no active robot,
changes nothing; an active one that touches an active robot hits exactly the lowest-index
such robot `j`: that robot loses 1 health (and is deactivated, with score + 10, when its
health is then at most 0), projectile `i` is deactivated, and every other robot, projectile and
field is unchanged. -/
theorem CheckCollisions_first_hit (coll : Collision) (s : Game) :
    CheckCollisions coll s = (List.finRange MAX_PROJECTILES).foldl (collideStep coll) s ∧
    ∀ i : Fin MAX_PROJECTILES,
      ((s.projectiles.get i).active = false → collideStep coll s i = s) ∧
      ((∀ j, hits coll s i j = false) → collideStep coll s i = s) ∧
      (∀ j, (s.projectiles.get i).active = true → hits coll s i j = true →
        (∀ k, k < j → hits coll s i k = false) →
        collideStep coll s i =
          { s with
            robots := s.robots.set j (damaged (s.robots.get j))
            projectiles := s.projectiles.set i { s.projectiles.get i with active := false }
            score := if (s.robots.get j).health - 1 ≤ 0 then s.score + 10 else s.score }) := by
  refine ⟨rfl, fun i => ⟨fun h => ?_, fun h => ?_, fun j hact hj hlow => ?_⟩⟩
  · simp [collideStep, h]
  · unfold collideStep
    split
    · exact scan_none (hits coll s i) (hitResult s i) s (collideScan coll i s) rfl
        (collideScan_cons coll i s) _ (fun k _ => h k)
    · rfl
  · simp only [collideStep, hact, if_true]
    exact scan_first (hits coll s i) (hitResult s i) (collideScan coll i s)
      (collideScan_cons coll i s) j hj hlow _ (List.pairwise_lt_finRange _) (List.mem_finRange j)

/-- C4 on a state where projectile 0 touches the robots of slots 0 and 1: only robot 0 is hit. -/
theorem CheckCollisions_first_hit_witness :
    (duelState.projectiles.get 0).active = true ∧ hits allCollide duelState 0 0 = true ∧
    hits allCollide duelState 0 1 = true ∧
    collideStep allCollide duelState 0 =
      { duelState with
        robots := duelState.robots.set 0 (damaged (duelState.robots.get 0))
        projectiles := duelState.projectiles.set 0
          { duelState.projectiles.get 0 with active := false }
        score := if (duelState.robots.get 0).health - 1 ≤ 0 then duelState.score + 10
          else duelState.score } :=
  ⟨rfl, rfl, rfl,
    ((CheckCollisions_first_hit allCollide duelState).2 0).2.2 0 rfl rfl (by decide)⟩

/-! ## The end of the match by time (C5) -/

/-- C5 (as stated, refuted): in the last second of an Easy match with base health 1 and a robot
at `x = 0`, the remaining time is at most 0 after the clock step, yet the frame ends with the
message "YOU LOST!": the robot loop runs after the time check and overwrites "YOU WON!". -/
theorem UpdateGame_time_up_lost :
    (clockStep quietSecond.frameTime lastSecondBreach).remainingTime ≤ 0 ∧
    (UpdateGame noCollision quietSecond lastSecondBreach).gameOver = true ∧
    (UpdateGame noCollision quietSecond lastSecondBreach).endMessage = "YOU LOST!" ∧
    (UpdateGame noCollision quietSecond lastSecondBreach).endMessage ≠ "YOU WON!" := by
  have hb := lastSecondBreach_breaches.1
  have hpos := breachCount_pos _ _ hb
  obtain ⟨-, h2, h3, -⟩ := UpdateGame_summary noCollision quietSecond lastSecondBreach
  have hbh : lastSecondBreach.baseHealth = 1 := rfl
  have hle : lastSecondBreach.baseHealth -
      (breachCount (robotLoopEntry quietSecond lastSecondBreach) : Int) ≤ 0 := by
    rw [hbh]; omega
  refine ⟨?_, ?_, ?_, ?_⟩
  · have ht : lastSecondBreach.remainingTime = 1 := rfl
    have ha : lastSecondBreach.timeSinceLastUpdate = 0 := rfl
    have hq : quietSecond.frameTime = 1 := rfl
    rw [clockStep_eq]
    simp only [timeAfterClock, ht, ha, hq]
    norm_num
  · rw [h2]; simp [hpos, hle]
  · rw [h3]; simp [hpos, hle]
  · rw [h3]; simp [hpos, hle]

/-- C5 (amended): in every frame in which the remaining time is at most 0 after the clock step,
`UpdateGame` ends with `gameOver` true; the end message is "YOU WON!" unless some robot breaches
in that frame and leaves base health at most 0, in which case it is "YOU LOST!". -/
theorem UpdateGame_time_up (coll : Collision) (inp : FrameInput) (s : Game)
    (h : (clockStep inp.frameTime s).remainingTime ≤ 0) :
    (UpdateGame coll inp s).gameOver = true ∧
    (UpdateGame coll inp s).endMessage =
      if 0 < breachCount (robotLoopEntry inp s) ∧ (UpdateGame coll inp s).baseHealth ≤ 0
      then "YOU LOST!" else "YOU WON!" := by
  obtain ⟨h1, h2, h3, -⟩ := UpdateGame_summary coll inp s
  obtain ⟨t1, t2⟩ := clockStep_time_up inp.frameTime s h
  rw [h2, h3, h1, t1, t2]
  simp

/-- C5 (amended) at the last second of an Easy match without robots: the message is "YOU WON!". -/
theorem UpdateGame_time_up_witness :
    (clockStep quietSecond.frameTime lastSecondQuiet).remainingTime ≤ 0 ∧
    (UpdateGame noCollision quietSecond lastSecondQuiet).gameOver = true ∧
    (UpdateGame noCollision quietSecond lastSecondQuiet).endMessage =
      if 0 < breachCount (robotLoopEntry quietSecond lastSecondQuiet) ∧
        (UpdateGame noCollision quietSecond lastSecondQuiet).baseHealth ≤ 0
      then "YOU LOST!" else "YOU WON!" := by
  have hyp : (clockStep quietSecond.frameTime lastSecondQuiet).remainingTime ≤ 0 := by
    have ht : lastSecondQuiet.remainingTime = 1 := rfl
    have ha : lastSecondQuiet.timeSinceLastUpdate = 0 := rfl
    have hq : quietSecond.frameTime = 1 := rfl
    rw [clockStep_eq]
    simp only [timeAfterClock, ht, ha, hq]
    norm_num
  exact ⟨hyp, UpdateGame_time_up noCollision quietSecond lastSecondQuiet hyp⟩

/-! ## Sixty seconds of an Easy match (C6) -/

/-- C6 (as stated, refuted): on a fresh Easy match (remaining time 60, base health 5,
accumulator 0) without spawns, 80 frames of 0.75 s sum to exactly 60 seconds, but the clock
loses one second every second frame (the 0.5 s in excess is discarded): 20 seconds remain and
the match is not over.  Likewise a single frame of 60 seconds leaves 59 seconds. -/
theorem sixty_seconds_not_won :
    easyStart.remainingTime = 60 ∧ easyStart.baseHealth = 5 ∧
    easyStart.timeSinceLastUpdate = 0 ∧ (∀ j, (easyStart.robots.get j).active = false) ∧
    ((List.replicate 80 slowFrame).map FrameInput.frameTime).sum = 60 ∧
    (∀ inp ∈ List.replicate 80 slowFrame, 0 ≤ inp.frameTime ∧ 2 ≤ inp.spawnRoll) ∧
    (playFrames noCollision easyStart (List.replicate 80 slowFrame)).gameOver = false ∧
    (playFrames noCollision easyStart (List.replicate 80 slowFrame)).remainingTime = 20 ∧
    (playFrames noCollision easyStart [⟨60, 50, 0, none⟩]).gameOver = false ∧
    (playFrames noCollision easyStart [⟨60, 50, 0, none⟩]).remainingTime = 59 := by
  have hmem : ∀ inp ∈ List.replicate 80 slowFrame, inp = slowFrame :=
    fun inp h => (List.mem_replicate.mp h).2
  have hacc : easyStart.timeSinceLastUpdate = 0 := rfl
  have hf : slowFrame.frameTime = 3 / 4 := rfl
  have hq := playFrames_quiet noCollision (List.replicate 80 slowFrame) easyStart 60
    (fun inp h => by rw [hmem inp h]; decide) (by decide) rfl rfl rfl (by norm_num)
  have ht : ticks 0 (List.replicate 80 (3 / 4)) = 40 := ticks_replicate_slow 40
  rw [List.map_replicate, hacc, hf, ht] at hq
  obtain ⟨g1, g2⟩ := hq.2.2 (by norm_num)
  have hq1 := playFrames_quiet noCollision [⟨60, 50, 0, none⟩] easyStart 60
    (by simp) (by decide) rfl rfl rfl (by norm_num)
  have ht1 : ticks 0 [(60 : ℚ)] = 1 := by simp [ticks]
  simp only [List.map_cons, List.map_nil, hacc, ht1] at hq1
  obtain ⟨k1, k2⟩ := hq1.2.2 (by norm_num)
  refine ⟨rfl, rfl, rfl, by decide, ?_, fun inp h => ?_, g1, ?_, k1, ?_⟩
  · rw [List.map_replicate, hf, List.sum_replicate]; norm_num
  · rw [hmem inp h, hf]; exact ⟨by norm_num, by decide⟩
  · rw [g2]; norm_num
  · rw [k2]; norm_num

/-- C6 (amended): from a running match with 60 seconds left, base health 5, accumulator 0 and no
active robot, played over frames none of which spawns a robot: base health stays 5; the match
is over, with message "YOU WON!", exactly when the accumulator has reached one second in at
least 60 of the frames (the time in excess of each second is discarded, so frame times that
sum to 60 seconds need not suffice); otherwise the clock shows 60 minus that number. -/
theorem quiet_match_won (coll : Collision) (inputs : List FrameInput) (s : Game)
    (hroll : ∀ inp ∈ inputs, 2 ≤ inp.spawnRoll)
    (hrob : ∀ j, (s.robots.get j).active = false)
    (hrun : s.gameRunning = true) (hgo : s.gameOver = false)
    (hrem : s.remainingTime = 60) (hbh : s.baseHealth = 5) (hacc : s.timeSinceLastUpdate = 0) :
    (playFrames coll s inputs).baseHealth = 5 ∧
    (60 ≤ ticks 0 (inputs.map FrameInput.frameTime) →
      (playFrames coll s inputs).gameOver = true ∧
      (playFrames coll s inputs).endMessage = "YOU WON!") ∧
    (ticks 0 (inputs.map FrameInput.frameTime) < 60 →
      (playFrames coll s inputs).gameOver = false ∧
      (playFrames coll s inputs).remainingTime =
        60 - (ticks 0 (inputs.map FrameInput.frameTime) : ℚ)) := by
  have hq := playFrames_quiet coll inputs s 60 hroll hrob hrun hgo (by rw [hrem]; norm_num)
    (by norm_num)
  rw [hacc, hbh] at hq
  simpa using hq

/-- C6 (amended) on a fresh Easy match played for 60 frames of one second each. -/
theorem quiet_match_won_witness :
    (∀ inp ∈ List.replicate 60 quietSecond, 2 ≤ inp.spawnRoll) ∧
    easyStart.remainingTime = 60 ∧ easyStart.baseHealth = 5 ∧
    easyStart.timeSinceLastUpdate = 0 ∧
    (playFrames noCollision easyStart (List.replicate 60 quietSecond)).baseHealth = 5 ∧
    (playFrames noCollision easyStart (List.replicate 60 quietSecond)).gameOver = true ∧
    (playFrames noCollision easyStart (List.replicate 60 quietSecond)).endMessage = "YOU WON!" := by
  have hroll : ∀ inp ∈ List.replicate 60 quietSecond, 2 ≤ inp.spawnRoll := by
    intro inp hinp
    rw [(List.mem_replicate.mp hinp).2]
    decide
  have hticks : 60 ≤ ticks 0 ((List.replicate 60 quietSecond).map FrameInput.frameTime) := by
    rw [List.map_replicate]
    exact le_of_eq (ticks_replicate_one 60).symm
  obtain ⟨h1, h2, -⟩ := quiet_match_won noCollision (List.replicate 60 quietSecond) easyStart
    hroll (by decide) rfl rfl rfl rfl rfl
  exact ⟨hroll, rfl, rfl, rfl, h1, (h2 hticks).1, (h2 hticks).2⟩

/-! ## The flight of a projectile (C7) -/

/-- C7 (as stated, refuted): a turret at `px = 280` fires a projectile at `x = 300`; after
`(800 - 280 - 20) / 5 = 100` advances the projectile is at `x = 800`, which does not exceed the
right boundary, and it is still active. -/
theorem projectile_active_at_edge :
    (turretAt280.plants.get 0).position = ⟨280, 250⟩ ∧
    (SCREEN_WIDTH - 280 - 20 : ℚ) = 5 * 100 ∧
    (ShootProjectile 0 turretAt280).projectiles.get 0 = ⟨⟨300, 250⟩, true, 0⟩ ∧
    ((UpdateProjectiles^[100]) (ShootProjectile 0 turretAt280)).projectiles.get 0 =
      ⟨⟨800, 250⟩, true, 0⟩ := by
  have hp : (turretAt280.plants.get 0).position = ⟨280, 250⟩ := rfl
  have hshot : (ShootProjectile 0 turretAt280).projectiles.get 0 = ⟨⟨300, 250⟩, true, 0⟩ := by
    rw [ShootProjectile_get 0 turretAt280 0 rfl (by decide), hp]
    simp only [Vector.get_set_same]
    norm_num
  refine ⟨hp, by norm_num, hshot, ?_⟩
  rw [UpdateProjectiles_iterate_get, hshot, advanced_iterate _ rfl 100 (by norm_num)]
  norm_num

/-- C7 (amended): a projectile fired by the turret of slot `lane`, at (px, py), into the lowest
free projectile slot is created at (px + 20, py), active, with that lane; when
`800 - px - 20 = 5 n` and nothing hits it, it is active at `x = px + 20 + 5 k` after `k <= n`
passes of `UpdateProjectiles`, so still active at `x = 800` after `n = (800 - px - 20) / 5`
passes, and inactive (at `x = 805`) after `n + 1` passes. -/
theorem projectile_flight (lane : Fin LANE_COUNT) (s : Game) (j : Fin MAX_PROJECTILES) (n : Nat)
    (hfree : (s.projectiles.get j).active = false)
    (hlow : ∀ k, k < j → (s.projectiles.get k).active = true)
    (hn : SCREEN_WIDTH - (s.plants.get lane).position.x - 20 = 5 * (n : ℚ)) :
    (ShootProjectile lane s).projectiles.get j =
      ⟨⟨(s.plants.get lane).position.x + 20, (s.plants.get lane).position.y⟩, true,
        (lane.val : Int)⟩ ∧
    (∀ k : Nat, k ≤ n →
      ((UpdateProjectiles^[k]) (ShootProjectile lane s)).projectiles.get j =
        ⟨⟨(s.plants.get lane).position.x + 20 + 5 * (k : ℚ), (s.plants.get lane).position.y⟩,
          true, (lane.val : Int)⟩) ∧
    ((UpdateProjectiles^[n]) (ShootProjectile lane s)).projectiles.get j =
      ⟨⟨SCREEN_WIDTH, (s.plants.get lane).position.y⟩, true, (lane.val : Int)⟩ ∧
    ((UpdateProjectiles^[n + 1]) (ShootProjectile lane s)).projectiles.get j =
      ⟨⟨SCREEN_WIDTH + 5, (s.plants.get lane).position.y⟩, false, (lane.val : Int)⟩ := by
  have hshot : (ShootProjectile lane s).projectiles.get j =
      ⟨⟨(s.plants.get lane).position.x + 20, (s.plants.get lane).position.y⟩, true,
        (lane.val : Int)⟩ := by
    rw [ShootProjectile_get lane s j hfree hlow]
    simp [Vector.get_set_same]
  have hk : ∀ k : Nat, k ≤ n →
      ((UpdateProjectiles^[k]) (ShootProjectile lane s)).projectiles.get j =
        ⟨⟨(s.plants.get lane).position.x + 20 + 5 * (k : ℚ), (s.plants.get lane).position.y⟩,
          true, (lane.val : Int)⟩ := by
    intro k hkn
    rw [UpdateProjectiles_iterate_get, hshot, advanced_iterate _ rfl]
    simp only []
    have : (k : ℚ) ≤ (n : ℚ) := by exact_mod_cast hkn
    linarith
  have hlast := hk n le_rfl
  have hx : (s.plants.get lane).position.x + 20 + 5 * (n : ℚ) = SCREEN_WIDTH := by linarith
  rw [hx] at hlast
  refine ⟨hshot, hk, hlast, ?_⟩
  rw [Function.iterate_succ_apply', UpdateProjectiles_eq]
  simp only [Vector.get_map]
  rw [hlast]
  simp [advanced]

/-- C7 (amended) for the turret at (280, 250): active at 800 after 100 passes, gone after 101. -/
theorem projectile_flight_witness :
    (turretAt280.projectiles.get 0).active = false ∧
    SCREEN_WIDTH - (turretAt280.plants.get 0).position.x - 20 = 5 * ((100 : Nat) : ℚ) ∧
    ((UpdateProjectiles^[100]) (ShootProjectile 0 turretAt280)).projectiles.get 0 =
      ⟨⟨SCREEN_WIDTH, (turretAt280.plants.get 0).position.y⟩, true, ((0 : Fin LANE_COUNT).val : Int)⟩ ∧
    ((UpdateProjectiles^[100 + 1]) (ShootProjectile 0 turretAt280)).projectiles.get 0 =
      ⟨⟨SCREEN_WIDTH + 5, (turretAt280.plants.get 0).position.y⟩, false, ((0 : Fin LANE_COUNT).val : Int)⟩ := by
  have hp : (turretAt280.plants.get 0).position = ⟨280, 250⟩ := rfl
  have hn : SCREEN_WIDTH - (turretAt280.plants.get 0).position.x - 20 = 5 * ((100 : Nat) : ℚ) := by
    rw [hp]; norm_num
  exact ⟨rfl, hn, (projectile_flight 0 turretAt280 0 100 rfl (by decide) hn).2.2⟩

/-! ## A robot crossing the field on Hard (C8) -/

/-- C8: on Hard (robot speed 3) a robot at `x = 800`, alone on the field and never hit, is
active at `x = 800 - 3 k` with base health untouched after `k <= 266` passes of the robot loop
(at `x = 2` after 266), and after pass 267 it is at `x = -1`, inactive, and base health is lower
by exactly 1. -/
theorem robot_reaches_base (s : Game) (i : Fin MAX_ROBOTS) (hv : s.robotSpeed = HARD_ROBOT_SPEED)
    (hact : (s.robots.get i).active = true) (hx : (s.robots.get i).position.x = SCREEN_WIDTH)
    (hothers : ∀ j, j ≠ i → (s.robots.get j).active = false) :
    (∀ k : Nat, k ≤ 266 →
      (((moveRobots^[k]) s).robots.get i).active = true ∧
      (((moveRobots^[k]) s).robots.get i).position.x = 800 - 3 * (k : ℚ) ∧
      ((moveRobots^[k]) s).baseHealth = s.baseHealth) ∧
    ((((moveRobots^[266]) s).robots.get i).active = true ∧
      (((moveRobots^[266]) s).robots.get i).position.x = 2 ∧
      ((moveRobots^[266]) s).baseHealth = s.baseHealth) ∧
    ((((moveRobots^[267]) s).robots.get i).active = false ∧
      (((moveRobots^[267]) s).robots.get i).position.x = -1 ∧
      ((moveRobots^[267]) s).baseHealth = s.baseHealth - 1) := by
  have hm := march s i hv hact hx hothers
  refine ⟨fun k hk => ?_, ?_, march_end s i hv hact hx hothers⟩
  · obtain ⟨-, m2, m3, -, m5⟩ := hm k hk
    exact ⟨m2, m3, m5⟩
  · obtain ⟨-, m2, m3, -, m5⟩ := hm 266 le_rfl
    refine ⟨m2, ?_, m5⟩
    rw [m3]; norm_num

/-- C8 for the robot spawned into slot 0 of a fresh Hard match. -/
theorem robot_reaches_base_witness :
    hardWithRobot.robotSpeed = HARD_ROBOT_SPEED ∧
    (hardWithRobot.robots.get 0).active = true ∧
    (hardWithRobot.robots.get 0).position.x = SCREEN_WIDTH ∧
    ((((moveRobots^[266]) hardWithRobot).robots.get 0).active = true ∧
      (((moveRobots^[266]) hardWithRobot).robots.get 0).position.x = 2 ∧
      ((moveRobots^[266]) hardWithRobot).baseHealth = hardWithRobot.baseHealth) ∧
    ((((moveRobots^[267]) hardWithRobot).robots.get 0).active = false ∧
      (((moveRobots^[267]) hardWithRobot).robots.get 0).position.x = -1 ∧
      ((moveRobots^[267]) hardWithRobot).baseHealth = hardWithRobot.baseHealth - 1) :=
  ⟨rfl, rfl, rfl, (robot_reaches_base hardWithRobot 0 rfl rfl rfl (by decide)).2⟩

/-! ## Turret placement (C9, C10) -/

/-- C9: with a turret count of 7 or more `PlacePlant` returns the state it was given, whatever
the slots hold. -/
theorem PlacePlant_refuses (position : Vector2) (s : Game) (h : s.plantCount ≥ 7) :
    PlacePlant position s = s := by
  simp [PlacePlant, h]

/-- C9 at a state with count 7 in which every slot is inactive. -/
theorem PlacePlant_refuses_witness :
    ({ initialState with plantCount := 7 } : Game).plantCount ≥ 7 ∧
    PlacePlant ⟨120, 250⟩ { initialState with plantCount := 7 } =
      { initialState with plantCount := 7 } :=
  ⟨by decide, PlacePlant_refuses ⟨120, 250⟩ { initialState with plantCount := 7 } (by decide)⟩

/-- C10: with a turret count below 7, `PlacePlant` at `P` fills exactly the lowest-index
inactive slot with position `P`, active, countdown 60, and adds 1 to the count, every other
slot and field keeping its value; when all 5 slots are active the state is returned as is. -/
theorem PlacePlant_places (P : Vector2) (s : Game) (h : s.plantCount < 7) :
    (∀ j : Fin LANE_COUNT, (s.plants.get j).active = false →
      (∀ k, k < j → (s.plants.get k).active = true) →
      PlacePlant P s =
        { s with
          plants := s.plants.set j { position := P, active := true, shootTimer := 60 }
          plantCount := s.plantCount + 1 }) ∧
    ((∀ j : Fin LANE_COUNT, (s.plants.get j).active = true) → PlacePlant P s = s) := by
  have hlt : ¬ s.plantCount ≥ 7 := not_le.mpr h
  refine ⟨fun j hj hlow => ?_, fun hall => ?_⟩
  · simp only [PlacePlant, hlt, if_false]
    exact scan_first (fun i => !(s.plants.get i).active) _ (placeScan P s)
      (placeScan_cons P s) j (by simp [hj]) (fun k hk => by simp [hlow k hk])
      _ (List.pairwise_lt_finRange _) (List.mem_finRange j)
  · simp only [PlacePlant, hlt, if_false]
    exact scan_none (fun i => !(s.plants.get i).active) _ s (placeScan P s) rfl
      (placeScan_cons P s) _ (fun k _ => by simp [hall k])

/-- C10 at the program's initial state: the click lands in slot 0. -/
theorem PlacePlant_places_witness :
    initialState.plantCount < 7 ∧
    PlacePlant ⟨120, 250⟩ initialState =
      { initialState with
        plants := initialState.plants.set 0
          { position := ⟨120, 250⟩, active := true, shootTimer := 60 }
        plantCount := initialState.plantCount + 1 } :=
  ⟨by decide,
    (PlacePlant_places ⟨120, 250⟩ initialState (by decide)).1 0 (by decide) (by decide)⟩

/-! ## Robot spawn (C11) -/

/-- C11: `SpawnRobot` with lane draw `r` fills exactly the lowest-index inactive robot slot with
position (800, r * 100 + 50), active, health 3 (every other slot and field keeps its value), and
returns the state as it is when all 10 slots are active; in `UpdateGame` the spawn runs, after
the clock step, exactly when the frame's draw from 0..100 is below 2. -/
theorem SpawnRobot_fills (coll : Collision) (inp : FrameInput) (r : Int) (s : Game) :
    (∀ j : Fin MAX_ROBOTS, (s.robots.get j).active = false →
      (∀ k, k < j → (s.robots.get k).active = true) →
      SpawnRobot r s =
        { s with robots := s.robots.set j { s.robots.get j with position := ⟨800, (r : ℚ) * 100 + 50⟩, active := true, health := 3 } }) ∧
    ((∀ j : Fin MAX_ROBOTS, (s.robots.get j).active = true) → SpawnRobot r s = s) ∧
    (inp.spawnRoll < 2 → spawnStep inp s = SpawnRobot inp.laneRoll s) ∧
    (2 ≤ inp.spawnRoll → spawnStep inp s = s) ∧
    UpdateGame coll inp s =
      CheckCollisions coll (UpdateProjectiles (updatePlants (clickStep inp (moveRobots
        (spawnStep inp (clockStep inp.frameTime s)))))) := by
  refine ⟨fun j hfree hlow => ?_, SpawnRobot_full r s, fun h => ?_, fun h => ?_, rfl⟩
  · rw [SpawnRobot_get r s j hfree hlow]
    push_cast
    rfl
  · simp [spawnStep, h]
  · simp [spawnStep, not_lt.mpr h]

/-- C11 on a fresh Hard match with lane draw 2: slot 0 is filled at (800, 250). -/
theorem SpawnRobot_fills_witness :
    (hardStart.robots.get 0).active = false ∧
    SpawnRobot 2 hardStart =
      { hardStart with robots := hardStart.robots.set 0 { hardStart.robots.get 0 with position := ⟨800, ((2 : Int) : ℚ) * 100 + 50⟩, active := true, health := 3 } } :=
  ⟨rfl, (SpawnRobot_fills noCollision quietSecond 2 hardStart).1 0 rfl (by decide)⟩

/-! ## Capacities (C12) -/

/-- C12: in every state reached from a match start (`InitGame` of any state) by any sequence of
`UpdateGame` frames, with any inputs and any collision test, at most 10 robot slots, at most 50
projectile slots and at most 7 turret slots are active (the arrays have 10, 50 and 5 slots). -/
theorem active_counts_bounded (coll : Collision) (start : Game) (inputs : List FrameInput) :
    activeRobots (runFrames coll (InitGame start) inputs) ≤ 10 ∧
    activeProjectiles (runFrames coll (InitGame start) inputs) ≤ 50 ∧
    activePlants (runFrames coll (InitGame start) inputs) ≤ 7 := by
  refine ⟨?_, ?_, ?_⟩
  · exact le_trans (List.countP_le_length _) (by simp)
  · exact le_trans (List.countP_le_length _) (by simp)
  · exact le_trans (List.countP_le_length _) (by rw [List.length_finRange]; decide)

/-! ## Difficulty selection (C13) -/

/-- C13: from the program's initial state, the difficulty screen left idle for any number of
frames and then answered with key 1 (Easy) or key 2 (Hard) returns with `gameRunning` true and
`gameOver` false, duration 60 and robot speed 1 for Easy, duration 30 and robot speed 3 for
Hard, and in both cases remaining time equal to the duration, score 0, base health 5 and every
turret, robot and projectile slot inactive. -/
theorem DifficultyScreen_starts (n : Nat) (later : List (Bool × Bool)) :
    ((chooseEasy n later).gameRunning = true ∧ (chooseEasy n later).gameOver = false ∧
      (chooseEasy n later).gameTime = 60 ∧ (chooseEasy n later).robotSpeed = 1 ∧
      (chooseEasy n later).remainingTime = 60 ∧ (chooseEasy n later).score = 0 ∧
      (chooseEasy n later).baseHealth = 5 ∧
      (∀ i, ((chooseEasy n later).plants.get i).active = false) ∧
      (∀ i, ((chooseEasy n later).robots.get i).active = false) ∧
      (∀ i, ((chooseEasy n later).projectiles.get i).active = false)) ∧
    ((chooseHard n later).gameRunning = true ∧ (chooseHard n later).gameOver = false ∧
      (chooseHard n later).gameTime = 30 ∧ (chooseHard n later).robotSpeed = 3 ∧
      (chooseHard n later).remainingTime = 30 ∧ (chooseHard n later).score = 0 ∧
      (chooseHard n later).baseHealth = 5 ∧
      (∀ i, ((chooseHard n later).plants.get i).active = false) ∧
      (∀ i, ((chooseHard n later).robots.get i).active = false) ∧
      (∀ i, ((chooseHard n later).projectiles.get i).active = false)) := by
  rw [chooseEasy_eq, chooseHard_eq]
  exact ⟨⟨rfl, rfl, rfl, rfl, rfl, rfl, rfl, by decide, by decide, by decide⟩,
    ⟨rfl, rfl, rfl, rfl, rfl, rfl, rfl, by decide, by decide, by decide⟩⟩

/-! ## Robot health (C14) -/

/-- C14: in every state reached from a match start (`InitGame` of any state) by any sequence of
`UpdateGame` frames, with any inputs and any collision test (so also when several projectiles
hit the same robot in one frame), every active robot has health above 0, indeed between 1
and 3. -/
theorem robot_health_positive (coll : Collision) (start : Game) (inputs : List FrameInput)
    (j : Fin MAX_ROBOTS) :
    ((runFrames coll (InitGame start) inputs).robots.get j).active = true →
      0 < ((runFrames coll (InitGame start) inputs).robots.get j).health ∧
      1 ≤ ((runFrames coll (InitGame start) inputs).robots.get j).health ∧
      ((runFrames coll (InitGame start) inputs).robots.get j).health ≤ 3 := by
  intro h
  obtain ⟨h1, h3⟩ := runFrames_healthy coll start inputs j h
  exact ⟨by omega, h1, h3⟩

/-- C14 after a frame that spawns a robot on a fresh Hard match: slot 0 is active, health 1..3. -/
theorem robot_health_positive_witness :
    ((runFrames noCollision (InitGame hardStart) [spawnFrame]).robots.get 0).active = true ∧
    0 < ((runFrames noCollision (InitGame hardStart) [spawnFrame]).robots.get 0).health ∧
    1 ≤ ((runFrames noCollision (InitGame hardStart) [spawnFrame]).robots.get 0).health ∧
    ((runFrames noCollision (InitGame hardStart) [spawnFrame]).robots.get 0).health ≤ 3 :=
  ⟨spawnFrame_robot,
    robot_health_positive noCollision hardStart [spawnFrame] 0 spawnFrame_robot⟩

/-! ## Turret auto-fire (C15) -/

/-- C15: the body of the turret loop leaves an inactive turret alone, lowers an active turret's
countdown by 1, and exactly when the lowered value is at most 0 calls `ShootProjectile` and sets
the countdown to 60 (whether or not a projectile slot is free, and whatever the robots are);
`ShootProjectile` for turret `i` fills the lowest-index inactive projectile slot with position
(turret.x + 20, turret.y), active, lane `i`, and changes nothing when all 50 slots are active.
Over a frame every countdown is ticked in this way and the turrets that fire shoot in slot
order.  A turret placed in a frame (countdown 60) does not fire in that frame, and counting
that frame as update 1 it fires in update `n` exactly when `n` is a multiple of 60: first in
update 60, then every 60 updates. -/
theorem turret_auto_fire (coll : Collision) (inp : FrameInput) (s : Game) (i : Fin LANE_COUNT) :
    ((s.plants.get i).active = false → plantStep s i = s) ∧
    ((s.plants.get i).active = true → ¬ (s.plants.get i).shootTimer - 1 ≤ 0 →
      plantStep s i =
        { s with plants := s.plants.set i { s.plants.get i with shootTimer := (s.plants.get i).shootTimer - 1 } }) ∧
    ((s.plants.get i).active = true → (s.plants.get i).shootTimer - 1 ≤ 0 →
      plantStep s i =
        { ShootProjectile i s with plants := s.plants.set i { s.plants.get i with shootTimer := 60 } }) ∧
    (∀ j : Fin MAX_PROJECTILES, (s.projectiles.get j).active = false →
      (∀ k, k < j → (s.projectiles.get k).active = true) →
      ShootProjectile i s =
        { s with projectiles := s.projectiles.set j ⟨⟨(s.plants.get i).position.x + 20, (s.plants.get i).position.y⟩, true, (i.val : Int)⟩ }) ∧
    ((∀ j : Fin MAX_PROJECTILES, (s.projectiles.get j).active = true) →
      ShootProjectile i s = s) ∧
    updatePlants s =
      { shotsFrom (fires s) s (List.finRange LANE_COUNT) with
        plants := s.plants.map tickedPlant } ∧
    UpdateGame coll inp s =
      CheckCollisions coll (UpdateProjectiles (updatePlants (turretLoopEntry inp s))) ∧
    ((s.plants.get i).active = true →
      (turretLoopEntry inp s).plants.get i = s.plants.get i ∧
      (UpdateGame coll inp s).plants.get i = tickedPlant (s.plants.get i)) ∧
    (∀ (P : Vector2) (more : List FrameInput) (next : FrameInput),
      inp.click = some P → s.plantCount < 7 → (s.plants.get i).active = false →
      (∀ k, k < i → (s.plants.get k).active = true) →
      fires (turretLoopEntry inp s) i = false ∧
      (runFrames coll s (inp :: more)).plants.get i =
        ⟨P, true, 60 - (((more.length + 1) % 60 : Nat) : Int)⟩ ∧
      (fires (turretLoopEntry next (runFrames coll s (inp :: more))) i = true ↔
        (more.length + 2) % 60 = 0)) := by
  refine ⟨fun h => ?_, fun h ht => ?_, fun h ht => ?_, ShootProjectile_get i s,
    ShootProjectile_full i s, updatePlants_eq s, rfl,
    fun h => ⟨turretLoopEntry_active inp s i h, UpdateGame_plant_active coll inp s i h⟩,
    fun P more next hclick hcount hfree hlow =>
      placed_turret_schedule coll inp s i P more next hclick hcount hfree hlow⟩
  · rw [plantStep_eq]
    simp only [fires, tickedPlant, h, Bool.false_and, Bool.false_eq_true, if_false]
    apply Game.ext <;> simp [vector_set_get]
  · rw [plantStep_eq]
    simp only [fires, tickedPlant, h, ht, Bool.true_and, decide_False, Bool.false_eq_true,
      if_false, if_true]
  · rw [plantStep_eq]
    simp only [fires, tickedPlant, h, ht, Bool.true_and, decide_True, if_true]

/-- C15 for a turret placed at (280, 250) in the first frame of a fresh Easy match: it does not
fire in that frame and fires in the 60th update. -/
theorem turret_auto_fire_witness :
    clickFrame.click = some ⟨280, 250⟩ ∧ easyStart.plantCount < 7 ∧
    (easyStart.plants.get 0).active = false ∧
    fires (turretLoopEntry clickFrame easyStart) 0 = false ∧
    fires (turretLoopEntry quietSecond
      (runFrames noCollision easyStart (clickFrame :: List.replicate 58 quietSecond))) 0 = true :=
  ⟨rfl, by decide, rfl,
    ((turret_auto_fire noCollision clickFrame easyStart 0).2.2.2.2.2.2.2.2 ⟨280, 250⟩
      (List.replicate 58 quietSecond) quietSecond rfl (by decide) rfl (by decide)).1,
    ((turret_auto_fire noCollision clickFrame easyStart 0).2.2.2.2.2.2.2.2 ⟨280, 250⟩
      (List.replicate 58 quietSecond) quietSecond rfl (by decide) rfl (by decide)).2.2.mpr
      (by simp)⟩

/-! ## The match clock (C16) -/

/-- C16: the clock step adds the frame time to the accumulator; when the sum is at least 1 the
remaining time goes down by exactly 1 and the accumulator restarts from 0 (the excess is
discarded), otherwise the accumulator keeps the sum and the remaining time is unchanged; the
rest of the frame leaves both alone, so a frame takes at most 1 second off the clock. -/
theorem clock_step (coll : Collision) (inp : FrameInput) (s : Game) :
    (clockStep inp.frameTime s).timeSinceLastUpdate =
      (if s.timeSinceLastUpdate + inp.frameTime ≥ 1 then 0
        else s.timeSinceLastUpdate + inp.frameTime) ∧
    (clockStep inp.frameTime s).remainingTime =
      (if s.timeSinceLastUpdate + inp.frameTime ≥ 1 then s.remainingTime - 1
        else s.remainingTime) ∧
    (UpdateGame coll inp s).timeSinceLastUpdate =
      (clockStep inp.frameTime s).timeSinceLastUpdate ∧
    (UpdateGame coll inp s).remainingTime = (clockStep inp.frameTime s).remainingTime ∧
    s.remainingTime - 1 ≤ (UpdateGame coll inp s).remainingTime ∧
    (UpdateGame coll inp s).remainingTime ≤ s.remainingTime := by
  obtain ⟨-, -, -, h4, h5, -⟩ := UpdateGame_summary coll inp s
  have hc := clockStep_eq inp.frameTime s
  have ha : (clockStep inp.frameTime s).timeSinceLastUpdate =
      (if s.timeSinceLastUpdate + inp.frameTime ≥ 1 then 0
        else s.timeSinceLastUpdate + inp.frameTime) := by rw [hc]
  have hr : (clockStep inp.frameTime s).remainingTime =
      (if s.timeSinceLastUpdate + inp.frameTime ≥ 1 then s.remainingTime - 1
        else s.remainingTime) := by rw [hc]; rfl
  refine ⟨ha, hr, h5, h4, ?_, ?_⟩
  · rw [h4, hr]; split <;> linarith
  · rw [h4, hr]; split <;> linarith

/-! ## Score (C17) -/

/-- C17: for every state and every frame input, the score after `UpdateGame` is at least the
score before it, and the increase is a multiple of 10 (10 for each robot destroyed in the
collision pass; no other step touches the score). -/
theorem score_monotone (coll : Collision) (inp : FrameInput) (s : Game) :
    s.score ≤ (UpdateGame coll inp s).score ∧
    ∃ n : Nat, (UpdateGame coll inp s).score = s.score + 10 * (n : Int) := by
  obtain ⟨n, hn⟩ := CheckCollisions_score coll
    (UpdateProjectiles (updatePlants (clickStep inp (moveRobots (robotLoopEntry inp s)))))
  rw [beforeCollisions_score] at hn
  have hU : UpdateGame coll inp s = CheckCollisions coll
    (UpdateProjectiles (updatePlants (clickStep inp (moveRobots (robotLoopEntry inp s))))) := rfl
  rw [hU]
  exact ⟨by rw [hn]; omega, n, hn⟩

/-! ## The turret count (C18) -/

/-- C18: in every state reached from a match start (`InitGame` of any state) by any sequence of
`UpdateGame` frames, with any clicks, the turret count `plantCount` equals the number of active
turret slots and is at most 5; so the guard `plantCount >= 7` of `PlacePlant` is false there and
`PlacePlant` is just its slot scan, and once the count is 5 every slot is active and a further
placement returns the state as it is, for lack of a free slot. -/
theorem plantCount_counts (coll : Collision) (start : Game) (inputs : List FrameInput)
    (P : Vector2) :
    (runFrames coll (InitGame start) inputs).plantCount =
      (activePlants (runFrames coll (InitGame start) inputs) : Int) ∧
    (runFrames coll (InitGame start) inputs).plantCount ≤ 5 ∧
    ¬ (runFrames coll (InitGame start) inputs).plantCount ≥ 7 ∧
    PlacePlant P (runFrames coll (InitGame start) inputs) =
      placeScan P (runFrames coll (InitGame start) inputs) (List.finRange LANE_COUNT) ∧
    ((runFrames coll (InitGame start) inputs).plantCount = 5 →
      (∀ i, ((runFrames coll (InitGame start) inputs).plants.get i).active = true) ∧
      PlacePlant P (runFrames coll (InitGame start) inputs) =
        runFrames coll (InitGame start) inputs) := by
  have hc := runFrames_counted coll start inputs
  generalize runFrames coll (InitGame start) inputs = g at hc
  have hle := activePlants_le g
  unfold TurretsCounted at hc
  have h5 : g.plantCount ≤ 5 := by rw [hc]; exact_mod_cast hle
  have h7 : ¬ g.plantCount ≥ 7 := by omega
  refine ⟨hc, h5, h7, by simp [PlacePlant, h7], fun hfull => ?_⟩
  have hall := activePlants_full g (by rw [hc] at hfull; exact_mod_cast hfull)
  refine ⟨hall, ?_⟩
  simp only [PlacePlant, h7, if_false]
  exact scan_none (fun i => !(g.plants.get i).active) _ g (placeScan P g) rfl
    (placeScan_cons P g) _ (fun k _ => by simp [hall k])

/-- C18 after five frames with a click on a fresh Easy match: the count is 5, all five slots are
active and a sixth placement changes nothing. -/
theorem plantCount_counts_witness :
    (runFrames noCollision (InitGame easyStart) (List.replicate 5 clickFrame)).plantCount = 5 ∧
    (∀ i, ((runFrames noCollision (InitGame easyStart)
      (List.replicate 5 clickFrame)).plants.get i).active = true) ∧
    PlacePlant ⟨400, 300⟩ (runFrames noCollision (InitGame easyStart)
        (List.replicate 5 clickFrame)) =
      runFrames noCollision (InitGame easyStart) (List.replicate 5 clickFrame) :=
  ⟨runFrames_clicks noCollision easyStart 5 le_rfl,
    (plantCount_counts noCollision easyStart (List.replicate 5 clickFrame) ⟨400, 300⟩).2.2.2.2
      (runFrames_clicks noCollision easyStart 5 le_rfl)⟩

/-! ## The end of the match (C19) -/

/-- C19: from a state with `gameOver` false, `gameOver` is true after `UpdateGame` if and only
if the remaining time after the clock step is at most 0, or at least one robot breached in the
frame and base health after the frame is at most 0.  In particular, with no breach and time
left the match goes on, whatever the base health (also at most 0, as a restart after a loss
leaves it). -/
theorem UpdateGame_gameOver_iff (coll : Collision) (inp : FrameInput) (s : Game)
    (h : s.gameOver = false) :
    ((UpdateGame coll inp s).gameOver = true ↔
      ((clockStep inp.frameTime s).remainingTime ≤ 0 ∨
        (0 < breachCount (robotLoopEntry inp s) ∧ (UpdateGame coll inp s).baseHealth ≤ 0))) ∧
    (breachCount (robotLoopEntry inp s) = 0 → 0 < (clockStep inp.frameTime s).remainingTime →
      (UpdateGame coll inp s).gameOver = false) := by
  obtain ⟨h1, h2, -⟩ := UpdateGame_summary coll inp s
  have hc := clockStep_eq inp.frameTime s
  have hg : (clockStep inp.frameTime s).gameOver =
      decide ((clockStep inp.frameTime s).remainingTime ≤ 0) := by
    rw [hc]; simp [h]
  rw [h2, h1, hg]
  constructor
  · simp
  · intro h0 hpos
    simp [h0, not_le.mpr hpos]

/-- C19 on the match restarted after the loss of `lastSecondBreach` (base health 0): a frame
without breach does not end it. -/
theorem UpdateGame_gameOver_iff_witness :
    restartedAfterLoss.gameOver = false ∧
    (UpdateGame noCollision quietSecond restartedAfterLoss).gameOver = false :=
  ⟨restartedAfterLoss_quiet.1,
    (UpdateGame_gameOver_iff noCollision quietSecond restartedAfterLoss
      restartedAfterLoss_quiet.1).2 restartedAfterLoss_quiet.2.1 restartedAfterLoss_quiet.2.2⟩

/-! ## Conservation in the collision pass (C20) -/

/-- C20: for any collision test and any state (in particular one whose active robots have
health above 0), after `CheckCollisions` the number of projectiles that went from active to
inactive equals the health lost summed over all robots, the score increase is 10 times the
number of robots that went from active to inactive, and no projectile and no robot goes from
inactive to active. -/
theorem collision_conservation (coll : Collision) (s : Game) :
    (projectilesLost s (CheckCollisions coll s) : Int) = healthLost s (CheckCollisions coll s) ∧
    (CheckCollisions coll s).score - s.score = 10 * (robotsLost s (CheckCollisions coll s) : Int) ∧
    (∀ i, (s.projectiles.get i).active = false →
      ((CheckCollisions coll s).projectiles.get i).active = false) ∧
    (∀ j, (s.robots.get j).active = false →
      ((CheckCollisions coll s).robots.get j).active = false) :=
  CheckCollisions_conserved coll s

end RootsVsRobots
